import Mathlib

/-!
# Pagination widget (`widget/pagination.go`)

A shallow embedding of the state and the event handlers of the `Pagination`
widget, followed by the properties established about them.

Conventions of the embedding.

* Go's `int` is the 64-bit two's-complement integer; values are `Int`s and
  the two arithmetic statements of the file (`current--`, `current++`) wrap.
* `float64` is IEEE-754 binary64 with round-to-nearest, ties-to-even.  A
  finite value is kept as an exact dyadic number `m * 2^e`.
* The four `binding.Int` fields are plain integers: `Get` never fails on
  them and its error result is discarded by the source anyway.
* The conversion `int(f)` of a `float64` that `int` cannot hold is left to
  the implementation by Go; its result is the parameter `cvt` of every
  definition that reaches `setTotalPages`.
* `OnChange` is host code.  Whether it is set is a flag, and every call
  made to it is recorded, in order, with its two arguments.
-/

namespace Widget

/-! ## Machine integers -/

/-- Smallest value of Go's `int` on a 64-bit platform. -/
def minInt : Int := -(2 ^ 63)

/-- Largest value of Go's `int` on a 64-bit platform. -/
def maxInt : Int := 2 ^ 63 - 1

/-- The integer is a value of Go's `int`. -/
def IsInt (x : Int) : Prop := minInt ≤ x ∧ x ≤ maxInt

instance (x : Int) : Decidable (IsInt x) := by
  unfold IsInt
  infer_instance

/-- Two's-complement wrap-around of an arithmetic result into `int`. -/
def wrapInt (x : Int) : Int := (x + 2 ^ 63) % 2 ^ 64 - 2 ^ 63

/-! ## IEEE-754 binary64 -/

/-- A `float64` value.  `finite m e` is the number `m * 2^e`; the sign of a
zero is not recorded (the only zero this program divides by is `float64(0)`,
which is `+0`, and `int(-0) = int(+0) = 0`). -/
inductive Float64 where
  | finite (m : Int) (e : Int)
  | inf (negative : Bool)
  | nan
  deriving DecidableEq, Repr

/-- Auxiliary for `ilog2`: at most `fuel` halvings. -/
def log2Fuel : Nat → Nat → Nat
  | 0, _ => 0
  | fuel + 1, n => if n < 2 then 0 else log2Fuel fuel (n / 2) + 1

/-- Position of the leading bit: `⌊log₂ n⌋` for `n > 0`. -/
def ilog2 (n : Nat) : Nat := log2Fuel n n

/-- The exponent `⌊log₂ (n / d)⌋` of a positive fraction. -/
def floorLog2 (n d : Nat) : Int :=
  let e0 : Int := (ilog2 n : Int) - (ilog2 d : Int)
  if d * 2 ^ ilog2 n ≤ n * 2 ^ ilog2 d then e0 else e0 - 1

/-- The integer nearest to `n / d`, a tie going to the even neighbour. -/
def roundHalfEven (n d : Nat) : Nat :=
  let q := n / d
  let r := n % d
  if 2 * r < d then q else if d < 2 * r then q + 1 else if q % 2 = 0 then q else q + 1

/-- Exponent of the last place of the binary64 nearest to the positive number
`(n / d) * 2^k`: 53 significant bits, and not below `-1074` (subnormals). -/
def lastPlace (n d : Nat) (k : Int) : Int :=
  max (floorLog2 n d + k - 52) (-1074)

/-- The positive number `(n / d) * 2^k` in units of its last place, rounded
to the nearest integer, a tie going to the even one. -/
def significand (n d : Nat) (k : Int) : Nat :=
  let s := lastPlace n d k
  if s ≤ k then roundHalfEven (n * 2 ^ (k - s).toNat) d
  else roundHalfEven n (d * 2 ^ (s - k).toNat)

/-- Round the positive number `(n / d) * 2^k` to binary64, with the given
sign.  Overflow to infinity happens at `2^1024`, that is when the 53-bit
significand would need a last place above `971`. -/
def roundPos (negative : Bool) (n d : Nat) (k : Int) : Float64 :=
  let s := lastPlace n d k
  let m := significand n d k
  if 971 < s ∨ (s = 971 ∧ 2 ^ 53 ≤ m) then Float64.inf negative
  else Float64.finite (if negative then -(m : Int) else (m : Int)) s

/-- The conversion `float64(n)` of an `int`. -/
def Float64.ofInt (n : Int) : Float64 :=
  if n = 0 then Float64.finite 0 0 else roundPos (decide (n < 0)) n.natAbs 1 0

/-- The quotient `a / b` of two `float64` values. -/
def Float64.div : Float64 → Float64 → Float64
  | Float64.nan, _ => Float64.nan
  | _, Float64.nan => Float64.nan
  | Float64.inf _, Float64.inf _ => Float64.nan
  | Float64.inf s, Float64.finite b _ => Float64.inf (xor s (decide (b < 0)))
  | Float64.finite _ _, Float64.inf _ => Float64.finite 0 0
  | Float64.finite a ea, Float64.finite b eb =>
    if b = 0 then (if a = 0 then Float64.nan else Float64.inf (decide (a < 0)))
    else if a = 0 then Float64.finite 0 0
    else roundPos (xor (decide (a < 0)) (decide (b < 0))) a.natAbs b.natAbs (ea - eb)

/-- The function `math.Ceil`. -/
def Float64.ceil : Float64 → Float64
  | Float64.finite m e =>
    if 0 ≤ e then Float64.finite m e else Float64.finite (-((-m) / 2 ^ (-e).toNat)) 0
  | f => f

/-- The conversion `int(f)`: truncation toward zero when the result is a
value of `int`.  Otherwise Go leaves the result to the implementation; that
result is the parameter `cvt`. -/
def Float64.toInt (cvt : Float64 → Int) : Float64 → Int
  | Float64.finite m e =>
    let v : Int := if 0 ≤ e then m * 2 ^ e.toNat else Int.tdiv m (2 ^ (-e).toNat)
    if minInt ≤ v ∧ v ≤ maxInt then v else cvt (Float64.finite m e)
  | f => cvt f

/-- Whether a `float64` value is a zero. -/
def Float64.isZero : Float64 → Bool
  | Float64.finite m _ => decide (m = 0)
  | _ => false

/-- The out-of-range result of `int(f)` on amd64: the "integer indefinite"
value `-2^63`. -/
def cvtAmd64 : Float64 → Int := fun _ => minInt

/-! ## `strconv.Atoi` -/

/-- The two failures of `strconv.Atoi`: `ErrSyntax` and `ErrRange`. -/
inductive NumError where
  | errSyntax
  | errRange
  deriving DecidableEq, Repr

deriving instance DecidableEq for Except

/-- The digit loop of `strconv.ParseUint` (base 10, 64 bits), entered with
the value `acc` of the digits already read: `ErrSyntax` at the first byte
that is not a digit, `ErrRange` as soon as the value passes `2^64 - 1`,
whichever comes first. -/
def parseDigits : List Char → Nat → Except NumError Nat
  | [], acc => Except.ok acc
  | c :: cs, acc =>
    if 48 ≤ c.toNat ∧ c.toNat ≤ 57 then
      if acc * 10 + (c.toNat - 48) < 2 ^ 64 then parseDigits cs (acc * 10 + (c.toNat - 48))
      else Except.error NumError.errRange
    else Except.error NumError.errSyntax

/-- The digits of a number after its optional sign: at least one is needed. -/
def parseUnsigned : List Char → Except NumError Nat
  | [] => Except.error NumError.errSyntax
  | cs => parseDigits cs 0

/-- Go's `strconv.Atoi` for a 64-bit `int`: an optional `+` or `-`, then one
or more decimal digits, the value being a value of `int`.  The error is the
one of the digit loop, or `ErrRange` for a value that `int` cannot hold. -/
def Atoi (s : String) : Except NumError Int :=
  match s.data with
  | [] => Except.error NumError.errSyntax
  | c :: cs =>
    if c = '-' then
      match parseUnsigned cs with
      | Except.error e => Except.error e
      | Except.ok n =>
        if (n : Int) ≤ 2 ^ 63 then Except.ok (-(n : Int)) else Except.error NumError.errRange
    else
      match parseUnsigned (if c = '+' then cs else c :: cs) with
      | Except.error e => Except.error e
      | Except.ok n =>
        if (n : Int) ≤ maxInt then Except.ok (n : Int) else Except.error NumError.errRange

/-- Following the spec's words, "text that parses as a decimal integer" read
as syntax: an optional sign followed by one or more decimal digits. -/
def isDecimalText (s : String) : Bool :=
  match s.data with
  | [] => false
  | c :: cs =>
    if c = '-' ∨ c = '+' then
      !cs.isEmpty && cs.all (fun d => decide (48 ≤ d.toNat ∧ d.toNat ≤ 57))
    else (c :: cs).all (fun d => decide (48 ≤ d.toNat ∧ d.toNat ≤ 57))

/-! ## The widget state -/

/-- The package variable `firstPage`. -/
def firstPage : Int := 1

/-- The package variable `defaultPageSize`. -/
def defaultPageSize : Int := 10

/-- The struct `Pagination`, without the toolkit's `BaseWidget` and
`Objects`.  `OnChange` tells whether the callback is set (not `nil`);
`calls` lists the argument pairs `OnChange` has been called with, oldest
first. -/
structure Pagination where
  page : Int
  pageSize : Int
  totalPages : Int
  totalRows : Int
  OnChange : Bool
  calls : List (Int × Int)
  defaultPageSize : Int
  deriving DecidableEq, Repr

namespace Pagination

/-- Method `Reset`. -/
def Reset (p : Pagination) : Pagination :=
  { p with page := firstPage, pageSize := p.defaultPageSize }

/-- Method `SetDefaultPageSize`. -/
def SetDefaultPageSize (p : Pagination) (size : Int) : Pagination :=
  { p with defaultPageSize := size, pageSize := size }

/-- Method `GetPage`. -/
def GetPage (p : Pagination) : Int := p.page

/-- Method `GetPageSize`. -/
def GetPageSize (p : Pagination) : Int := p.pageSize

/-- Method `GetTotalPages`. -/
def GetTotalPages (p : Pagination) : Int := p.totalPages

/-- Method `setTotalPages`:
`pages := int(math.Ceil(float64(rows) / float64(size)))`. -/
def setTotalPages (cvt : Float64 → Int) (p : Pagination) : Pagination :=
  let size := p.pageSize
  let rows := p.totalRows
  let pages := Float64.toInt cvt
    (Float64.ceil (Float64.div (Float64.ofInt rows) (Float64.ofInt size)))
  { p with totalPages := pages }

/-- Method `onSubmit`: call `OnChange(page, pageSize)` when it is set. -/
def onSubmit (p : Pagination) : Pagination :=
  if p.OnChange then { p with calls := p.calls ++ [(p.page, p.pageSize)] } else p

/-- Method `SetTotalRows` (the final `Refresh` only redraws). -/
def SetTotalRows (cvt : Float64 → Int) (p : Pagination) (total : Int) : Pagination :=
  onSubmit (setTotalPages cvt { Reset p with totalRows := total })

/-- Method `handlePreClick`. -/
def handlePreClick (p : Pagination) : Pagination :=
  let current := p.page
  if current = 1 then p
  else onSubmit { p with page := wrapInt (current - 1) }

/-- Method `handleNextClick`. -/
def handleNextClick (p : Pagination) : Pagination :=
  let current := p.page
  let total := p.totalPages
  if current ≥ total then p
  else onSubmit { p with page := wrapInt (current + 1) }

/-- Function `NewPagination`: four fresh bindings (holding `0`), the default
page size, no callback, then `Reset`. -/
def NewPagination : Pagination :=
  Reset { page := 0, pageSize := 0, totalPages := 0, totalRows := 0,
          OnChange := false, calls := [], defaultPageSize := Widget.defaultPageSize }

/-! ## The handlers installed by `CreateRenderer` -/

/-- A non-nil `error` returned by one of the two entry validators. -/
inductive EntryError where
  /-- the error of `strconv.Atoi`, returned as it is -/
  | atoi (e : NumError)
  /-- "page should not be smaller than 1" -/
  | pageTooSmall
  /-- "page should not bigger than total page" -/
  | pageTooBig
  /-- "page size should be bigger than 1" -/
  | pageSizeTooSmall
  deriving DecidableEq, Repr

/-- The part of `curPage.Validator` after the text has been parsed; the
result is Go's `error`, `none` being `nil`. -/
def checkPage (p : Pagination) (targetPage : Int) : Option EntryError :=
  let totalPages := p.GetTotalPages
  if targetPage < 1 then some EntryError.pageTooSmall
  else if totalPages = 0 then none
  else if targetPage > totalPages then some EntryError.pageTooBig
  else none

/-- The closure `curPage.Validator`. -/
def curPageValidator (p : Pagination) (s : String) : Option EntryError :=
  match Atoi s with
  | Except.error err => some (EntryError.atoi err)
  | Except.ok targetPage => checkPage p targetPage

/-- The closure `curPage.OnSubmitted`; `text` is the content of the entry,
which `curPage.Validate()` hands to the validator. -/
def curPageOnSubmitted (p : Pagination) (text : String) : Pagination :=
  match curPageValidator p text with
  | none => onSubmit p
  | some _ => p

/-- The part of `pageSizeValue.Validator` after the text has been parsed. -/
def checkPageSize (target : Int) : Option EntryError :=
  if target < 1 then some EntryError.pageSizeTooSmall else none

/-- The closure `pageSizeValue.Validator`. -/
def pageSizeValidator (s : String) : Option EntryError :=
  match Atoi s with
  | Except.error err => some (EntryError.atoi err)
  | Except.ok target => checkPageSize target

/-- The closure `pageSizeValue.OnSubmitted`; `text` is the content of the
entry. -/
def pageSizeOnSubmitted (cvt : Float64 → Int) (p : Pagination) (text : String) : Pagination :=
  match pageSizeValidator text with
  | none => onSubmit { setTotalPages cvt p with page := firstPage }
  | some _ => p

/-! ## The two entry transitions

The handlers above never store the number the user entered: the entries are
created by `widget.NewEntryWithData(binding.IntToString(...))`, and it is the
toolkit's data binding that carries an entered number into `page` or
`pageSize`.  The toolkit is not part of this repository. -/

/-- Modelled from the spec: the toolkit's entry and its data binding to
`page` (fyne, which is not part of this repository).  Following the spec's `jumpToPage(target)`:
input that the validator rejects makes the transition fail with that error;
input it accepts is the new `page` when the submit handler runs. -/
def jumpToPage (p : Pagination) (text : String) : Except EntryError Pagination :=
  match Atoi text with
  | Except.error err => Except.error (EntryError.atoi err)
  | Except.ok target =>
    match checkPage p target with
    | some err => Except.error err
    | none => Except.ok (curPageOnSubmitted { p with page := target } text)

/-- Modelled from the spec: the toolkit's entry and its data binding to
`pageSize` (fyne, which is not part of this repository).  Following the spec's
`setPageSize(newSize)`: input that the validator rejects makes the transition
fail with that error; input it accepts is the new `pageSize` when the submit
handler runs. -/
def setPageSize (cvt : Float64 → Int) (p : Pagination) (text : String) :
    Except EntryError Pagination :=
  match Atoi text with
  | Except.error err => Except.error (EntryError.atoi err)
  | Except.ok newSize =>
    match checkPageSize newSize with
    | some err => Except.error err
    | none => Except.ok (pageSizeOnSubmitted cvt { p with pageSize := newSize } text)

/-! ## Sequences of transitions -/

/-- The transitions of the widget: the three public methods, the two button
handlers, the two entry transitions, and the host assigning the exported
field `OnChange`. -/
inductive Op where
  | reset
  | setDefaultPageSize (n : Int)
  | setTotalRows (total : Int)
  | previous
  | next
  | jumpToPage (text : String)
  | setPageSize (text : String)
  | setOnChange (set : Bool)
  deriving DecidableEq, Repr

/-- The transition is a call of `SetDefaultPageSize`. -/
def Op.isSetDefaultPageSize : Op → Bool
  | Op.setDefaultPageSize _ => true
  | _ => false

/-- One transition.  `none` when the transition is not taken: the argument
breaks the documented precondition (`n ≥ 1`, `total ≥ 0`, a value of `int`)
or the entered text is rejected by its validator. -/
def step (cvt : Float64 → Int) (p : Pagination) : Op → Option Pagination
  | Op.reset => some (Reset p)
  | Op.setDefaultPageSize n => if 1 ≤ n ∧ IsInt n then some (SetDefaultPageSize p n) else none
  | Op.setTotalRows total =>
    if 0 ≤ total ∧ IsInt total then some (SetTotalRows cvt p total) else none
  | Op.previous => some (handlePreClick p)
  | Op.next => some (handleNextClick p)
  | Op.jumpToPage text =>
    match jumpToPage p text with
    | Except.ok q => some q
    | Except.error _ => none
  | Op.setPageSize text =>
    match setPageSize cvt p text with
    | Except.ok q => some q
    | Except.error _ => none
  | Op.setOnChange set => some { p with OnChange := set }

/-- Run a sequence of transitions, first to last. -/
def run (cvt : Float64 → Int) : List Op → Pagination → Option Pagination
  | [], p => some p
  | op :: ops, p =>
    match step cvt p op with
    | some q => run cvt ops q
    | none => none

/-- The state is reached from `NewPagination()` by some sequence of
transitions. -/
def Reachable (cvt : Float64 → Int) (p : Pagination) : Prop :=
  ∃ ops : List Op, run cvt ops NewPagination = some p

/-- The count `setTotalPages` stores for the given row count and page size:
the source's expression `int(math.Ceil(float64(rows) / float64(size)))`. -/
def pagesOf (cvt : Float64 → Int) (rows size : Int) : Int :=
  Float64.toInt cvt (Float64.ceil (Float64.div (Float64.ofInt rows) (Float64.ofInt size)))

/-- The bounds on the page that every transition keeps. -/
def PageInv (p : Pagination) : Prop :=
  1 ≤ p.page ∧ IsInt p.page ∧ IsInt p.totalPages ∧ (1 ≤ p.totalPages → p.page ≤ p.totalPages)

/-- The sizes that every transition keeps at least 1. -/
def SizeInv (p : Pagination) : Prop :=
  1 ≤ p.pageSize ∧ 1 ≤ p.defaultPageSize

end Pagination

/-! ## The specification's ceiling division -/

/-- Following the spec's words, `ceil(totalRows / pageSize)` as exact integer
ceiling division. -/
def ceilDiv (totalRows pageSize : Int) : Int := -((-totalRows) / pageSize)

/-! ## Basic facts -/

theorem wrapInt_of_isInt {x : Int} (h : IsInt x) : wrapInt x = x := by
  unfold IsInt minInt maxInt at h
  unfold wrapInt
  omega

/-- The spec's ceiling division is the least integer `n` with
`n * pageSize ≥ totalRows`. -/
theorem ceilDiv_least (rows size : Int) (hs : 1 ≤ size) :
    rows ≤ ceilDiv rows size * size ∧ ∀ k : Int, rows ≤ k * size → ceilDiv rows size ≤ k := by
  have hpos : 0 < size := by omega
  unfold ceilDiv
  constructor
  · have h := Int.ediv_mul_le (-rows) (ne_of_gt hpos)
    linarith
  · intro k hk
    have h : -k ≤ -rows / size := by
      rw [Int.le_ediv_iff_mul_le hpos]
      linarith
    linarith

theorem ceilDiv_nonneg (rows size : Int) (hr : 0 ≤ rows) (hs : 1 ≤ size) :
    0 ≤ ceilDiv rows size := by
  have hpos : 0 < size := by omega
  unfold ceilDiv
  have h : -rows / size ≤ 0 := by
    have := Int.ediv_le_ediv hpos (show -rows ≤ 0 by omega)
    simpa using this
  omega

theorem ceilDiv_zero (size : Int) : ceilDiv 0 size = 0 := by
  simp [ceilDiv]

theorem parseDigits_all_digits (cs : List Char) (acc n : Nat)
    (h : parseDigits cs acc = Except.ok n) :
    cs.all (fun d => decide (48 ≤ d.toNat ∧ d.toNat ≤ 57)) = true := by
  induction cs generalizing acc with
  | nil => rfl
  | cons c cs ih =>
    unfold parseDigits at h
    by_cases hc : 48 ≤ c.toNat ∧ c.toNat ≤ 57
    · rw [if_pos hc] at h
      by_cases hr : acc * 10 + (c.toNat - 48) < 2 ^ 64
      · rw [if_pos hr] at h
        simp only [List.all_cons, Bool.and_eq_true, decide_eq_true_eq]
        exact ⟨hc, ih _ h⟩
      · rw [if_neg hr] at h
        cases h
    · rw [if_neg hc] at h
      cases h

theorem parseUnsigned_all_digits (cs : List Char) (n : Nat)
    (h : parseUnsigned cs = Except.ok n) :
    cs ≠ [] ∧ cs.all (fun d => decide (48 ≤ d.toNat ∧ d.toNat ≤ 57)) = true := by
  cases cs with
  | nil => cases h
  | cons c cs => exact ⟨List.cons_ne_nil _ _, parseDigits_all_digits _ 0 n h⟩

/-- Whatever `Atoi` accepts is a value of `int`. -/
theorem Atoi_isInt (s : String) (n : Int) (h : Atoi s = Except.ok n) : IsInt n := by
  unfold Atoi at h
  split at h
  · cases h
  · split at h
    · split at h
      · cases h
      · split at h
        · cases h
          unfold IsInt minInt maxInt
          omega
        · cases h
    · split at h
      · cases h
      · split at h
        · cases h
          unfold IsInt minInt
          unfold maxInt at *
          omega
        · cases h

/-- Whatever `Atoi` accepts is an optional sign followed by decimal digits. -/
theorem Atoi_isDecimalText (s : String) (n : Int) (h : Atoi s = Except.ok n) :
    isDecimalText s = true := by
  unfold Atoi at h
  unfold isDecimalText
  split at h
  · cases h
  · rename_i c cs hdata
    by_cases hm : c = '-'
    · rw [if_pos hm] at h
      split at h
      · cases h
      · rename_i m hm2
        have := parseUnsigned_all_digits cs m hm2
        simp only [hm, true_or, if_true, Bool.and_eq_true, Bool.not_eq_true', List.isEmpty_eq_false]
        exact this
    · rw [if_neg hm] at h
      split at h
      · cases h
      · rename_i m hm2
        by_cases hp : c = '+'
        · rw [if_pos hp] at hm2
          have := parseUnsigned_all_digits cs m hm2
          simp only [hp, or_true, if_true, Bool.and_eq_true, Bool.not_eq_true',
            List.isEmpty_eq_false]
          exact this
        · rw [if_neg hp] at hm2
          have := parseUnsigned_all_digits (c :: cs) m hm2
          simp only [hm, hp, or_self, if_false]
          exact this.2

theorem parseDigits_append (cs : List Char) (c : Char) (acc : Nat) :
    parseDigits (cs ++ [c]) acc =
      match parseDigits cs acc with
      | Except.error e => Except.error e
      | Except.ok v =>
        if 48 ≤ c.toNat ∧ c.toNat ≤ 57 then
          if v * 10 + (c.toNat - 48) < 2 ^ 64 then Except.ok (v * 10 + (c.toNat - 48))
          else Except.error NumError.errRange
        else Except.error NumError.errSyntax := by
  induction cs generalizing acc with
  | nil => simp only [List.nil_append, parseDigits]
  | cons d ds ih =>
    simp only [List.cons_append, parseDigits]
    by_cases hd : 48 ≤ d.toNat ∧ d.toNat ≤ 57
    · rw [if_pos hd, if_pos hd]
      by_cases hr : acc * 10 + (d.toNat - 48) < 2 ^ 64
      · rw [if_pos hr, if_pos hr]
        exact ih _
      · rw [if_neg hr, if_neg hr]
    · rw [if_neg hd, if_neg hd]

theorem digit_char (d : Nat) (hd : d < 10) : (Char.ofNat (48 + d)).toNat = 48 + d := by
  interval_cases d <;> rfl

/-- Every natural number below `2^64` has a decimal text: digits only, at
least one, the first of them not a sign. -/
theorem parseDigits_surjective (n : Nat) :
    n < 2 ^ 64 →
    ∃ (c : Char) (cs : List Char), 48 ≤ c.toNat ∧ c.toNat ≤ 57 ∧
      parseDigits (c :: cs) 0 = Except.ok n := by
  induction n using Nat.strong_induction_on with
  | _ n ih =>
    intro hbound
    by_cases hn : n < 10
    · refine ⟨Char.ofNat (48 + n), [], ?_, ?_, ?_⟩
      · rw [digit_char n hn]
        omega
      · rw [digit_char n hn]
        omega
      · have h1 : 48 ≤ (Char.ofNat (48 + n)).toNat ∧ (Char.ofNat (48 + n)).toNat ≤ 57 := by
          rw [digit_char n hn]
          omega
        simp only [parseDigits]
        rw [if_pos h1, digit_char n hn]
        have hr : 0 * 10 + (48 + n - 48) < 2 ^ 64 := by omega
        rw [if_pos hr]
        simp
    · obtain ⟨c, cs, hc1, hc2, hp⟩ := ih (n / 10) (by omega) (by omega)
      have hm : n % 10 < 10 := Nat.mod_lt n (by decide)
      refine ⟨c, cs ++ [Char.ofNat (48 + n % 10)], hc1, hc2, ?_⟩
      have h1 : 48 ≤ (Char.ofNat (48 + n % 10)).toNat ∧
          (Char.ofNat (48 + n % 10)).toNat ≤ 57 := by
        rw [digit_char _ hm]
        omega
      have := parseDigits_append (c :: cs) (Char.ofNat (48 + n % 10)) 0
      rw [List.cons_append] at this
      rw [this, hp]
      simp only []
      rw [if_pos h1, digit_char _ hm]
      have hv : n / 10 * 10 + (48 + n % 10 - 48) = n := by omega
      rw [hv, if_pos hbound]

/-- Every value of `int` can be entered: some text is read by `Atoi` as that
value. -/
theorem Atoi_surjective (n : Int) (h : IsInt n) : ∃ s : String, Atoi s = Except.ok n := by
  unfold IsInt minInt maxInt at h
  by_cases hneg : n < 0
  · obtain ⟨c, cs, hc1, hc2, hp⟩ := parseDigits_surjective n.natAbs (by omega)
    refine ⟨String.mk ('-' :: c :: cs), ?_⟩
    have hu : parseUnsigned (c :: cs) = Except.ok n.natAbs := hp
    simp only [Atoi, if_true, hu]
    rw [if_pos (by omega)]
    congr 1
    omega
  · obtain ⟨c, cs, hc1, hc2, hp⟩ := parseDigits_surjective n.natAbs (by omega)
    refine ⟨String.mk (c :: cs), ?_⟩
    have hm : c ≠ '-' := by
      intro hc
      rw [hc] at hc1
      revert hc1
      decide
    have hpl : c ≠ '+' := by
      intro hc
      rw [hc] at hc1
      revert hc1
      decide
    have hu : parseUnsigned (c :: cs) = Except.ok n.natAbs := hp
    simp only [Atoi, if_neg hm, if_neg hpl, hu]
    rw [if_pos (by unfold maxInt; omega)]
    congr 1
    omega

/-! ## Facts about the rounding -/

theorem log2Fuel_spec (fuel n : Nat) (hf : n ≤ fuel) (hn : 1 ≤ n) :
    2 ^ log2Fuel fuel n ≤ n ∧ n < 2 ^ (log2Fuel fuel n + 1) := by
  induction fuel generalizing n with
  | zero => omega
  | succ fuel ih =>
    unfold log2Fuel
    by_cases h2 : n < 2
    · rw [if_pos h2]
      constructor
      · simpa using hn
      · simpa using h2
    · rw [if_neg h2]
      have hdiv : n / 2 ≤ fuel := by omega
      have hpos : 1 ≤ n / 2 := by omega
      obtain ⟨ih1, ih2⟩ := ih (n / 2) hdiv hpos
      constructor
      · rw [pow_succ]
        omega
      · rw [pow_succ]
        omega

theorem ilog2_spec (n : Nat) (hn : 1 ≤ n) : 2 ^ ilog2 n ≤ n ∧ n < 2 ^ (ilog2 n + 1) :=
  log2Fuel_spec n n (le_refl n) hn

theorem ilog2_one : ilog2 1 = 0 := rfl

theorem roundHalfEven_one (x : Nat) : roundHalfEven x 1 = x := by
  simp [roundHalfEven, Nat.mod_one]

theorem div_le_roundHalfEven (n d : Nat) : n / d ≤ roundHalfEven n d := by
  unfold roundHalfEven
  simp only []
  split
  · exact le_refl _
  · split
    · omega
    · split
      · exact le_refl _
      · omega

theorem floorLog2_le (n d : Nat) : floorLog2 n d ≤ (ilog2 n : Int) - (ilog2 d : Int) := by
  unfold floorLog2
  simp only []
  split <;> omega

theorem significand_int_pos (n : Nat) (hn : 1 ≤ n) : 0 < significand n 1 0 := by
  unfold significand
  simp only []
  by_cases hs : lastPlace n 1 0 ≤ 0
  · rw [if_pos hs, roundHalfEven_one]
    positivity
  · rw [if_neg hs]
    have hle := floorLog2_le n 1
    rw [ilog2_one] at hle
    have hpow := (ilog2_spec n hn).1
    have h1 : (lastPlace n 1 0 - 0).toNat ≤ ilog2 n := by
      unfold lastPlace at *
      omega
    have h2 : 2 ^ (lastPlace n 1 0 - 0).toNat ≤ n :=
      le_trans (Nat.pow_le_pow_right (by decide) h1) hpow
    have h3 : 1 ≤ n / (1 * 2 ^ (lastPlace n 1 0 - 0).toNat) := by
      rw [one_mul]
      exact (Nat.one_le_div_iff (by positivity)).2 h2
    exact lt_of_lt_of_le h3 (div_le_roundHalfEven _ _)

theorem roundPos_int_not_zero (negative : Bool) (n : Nat) (hn : 1 ≤ n) :
    (roundPos negative n 1 0).isZero = false := by
  have hm := significand_int_pos n hn
  unfold roundPos
  simp only []
  split
  · rfl
  · simp only [Float64.isZero, decide_eq_false_iff_not]
    cases negative <;> simp <;> omega

/-- The conversion `float64(n)` of a non-zero `int` is not a zero. -/
theorem Float64.ofInt_not_zero (n : Int) (hn : n ≠ 0) : (Float64.ofInt n).isZero = false := by
  unfold Float64.ofInt
  rw [if_neg hn]
  apply roundPos_int_not_zero
  omega


theorem roundHalfEven_le_of_le (N D C : Nat) (hD : 0 < D) (h : N ≤ C * D) :
    roundHalfEven N D ≤ C := by
  have hdm : D * (N / D) + N % D = N := Nat.div_add_mod N D
  have hq : N / D ≤ C := by
    apply Nat.div_le_of_le_mul
    rw [Nat.mul_comm]
    exact h
  have hstrict : 0 < N % D → N / D + 1 ≤ C := by
    intro hr
    by_contra hcon
    have hge : C ≤ N / D := by omega
    have : D * C ≤ D * (N / D) := Nat.mul_le_mul_left D hge
    have : C * D = D * C := Nat.mul_comm C D
    omega
  unfold roundHalfEven
  simp only []
  split
  · exact hq
  · split
    · apply hstrict
      omega
    · split
      · exact hq
      · apply hstrict
        omega

theorem roundHalfEven_ge_of_ge (N D C : Nat) (hD : 0 < D) (h : C * D ≤ N) :
    C ≤ roundHalfEven N D :=
  le_trans ((Nat.le_div_iff_mul_le hD).2 h) (div_le_roundHalfEven N D)

theorem roundHalfEven_exact (D C : Nat) (hD : 0 < D) : roundHalfEven (C * D) D = C :=
  le_antisymm (roundHalfEven_le_of_le _ D C hD (le_refl _))
    (roundHalfEven_ge_of_ge _ D C hD (le_refl _))

theorem roundHalfEven_half (N D : Nat) (hD : 0 < D) :
    2 * N ≤ 2 * (roundHalfEven N D * D) + D := by
  have hdm : D * (N / D) + N % D = N := Nat.div_add_mod N D
  have hcomm : N / D * D = D * (N / D) := Nat.mul_comm _ _
  unfold roundHalfEven
  simp only []
  split
  · omega
  · have : (N / D + 1) * D = D * (N / D) + D := by rw [Nat.add_mul, hcomm, one_mul]
    have hlt : N % D < D := Nat.mod_lt N hD
    split
    · omega
    · split
      · omega
      · omega

theorem two_zpow_sub_nat (a b : Nat) : (2 : ℚ) ^ ((a : Int) - (b : Int)) = 2 ^ a / 2 ^ b := by
  rw [zpow_sub₀ (by norm_num : (2 : ℚ) ≠ 0), zpow_natCast, zpow_natCast]

theorem floorLog2_spec (n d : Nat) (hn : 1 ≤ n) (hd : 1 ≤ d) :
    (2 : ℚ) ^ floorLog2 n d ≤ (n : ℚ) / d ∧ (n : ℚ) / d < 2 ^ (floorLog2 n d + 1) := by
  obtain ⟨ha1, ha2⟩ := ilog2_spec n hn
  obtain ⟨hb1, hb2⟩ := ilog2_spec d hd
  have hdq : (0 : ℚ) < d := by exact_mod_cast hd
  have ha1q : (2 : ℚ) ^ ilog2 n ≤ n := by exact_mod_cast ha1
  have ha2q : (n : ℚ) < 2 ^ (ilog2 n + 1) := by exact_mod_cast ha2
  have hb1q : (2 : ℚ) ^ ilog2 d ≤ d := by exact_mod_cast hb1
  have hb2q : (d : ℚ) < 2 ^ (ilog2 d + 1) := by exact_mod_cast hb2
  have hpa : (0 : ℚ) < 2 ^ ilog2 n := by positivity
  have hpb : (0 : ℚ) < 2 ^ ilog2 d := by positivity
  unfold floorLog2
  simp only []
  split
  · rename_i hc
    have hcq : (d : ℚ) * 2 ^ ilog2 n ≤ n * 2 ^ ilog2 d := by exact_mod_cast hc
    constructor
    · rw [two_zpow_sub_nat, div_le_div_iff₀ hpb hdq]
      linarith
    · have e : ((ilog2 n : Int) - (ilog2 d : Int) + 1) = (((ilog2 n + 1 : Nat) : Int) - (ilog2 d : Int)) := by
        push_cast
        ring
      rw [e, two_zpow_sub_nat, div_lt_div_iff₀ hdq hpb]
      calc (n : ℚ) * 2 ^ ilog2 d < 2 ^ (ilog2 n + 1) * 2 ^ ilog2 d := by
            apply mul_lt_mul_of_pos_right ha2q hpb
        _ ≤ 2 ^ (ilog2 n + 1) * d := by
            apply mul_le_mul_of_nonneg_left hb1q
            positivity
  · rename_i hc
    have hcq : (n : ℚ) * 2 ^ ilog2 d < d * 2 ^ ilog2 n := by
      have : n * 2 ^ ilog2 d < d * 2 ^ ilog2 n := by omega
      exact_mod_cast this
    constructor
    · have e : ((ilog2 n : Int) - (ilog2 d : Int) - 1) = ((ilog2 n : Int) - ((ilog2 d + 1 : Nat) : Int)) := by
        push_cast
        ring
      rw [e, two_zpow_sub_nat, div_le_div_iff₀ (by positivity) hdq]
      calc (2 : ℚ) ^ ilog2 n * d ≤ 2 ^ ilog2 n * 2 ^ (ilog2 d + 1) := by
            apply mul_le_mul_of_nonneg_left (le_of_lt hb2q)
            positivity
        _ ≤ n * 2 ^ (ilog2 d + 1) := by
            apply mul_le_mul_of_nonneg_right ha1q
            positivity
    · have e : ((ilog2 n : Int) - (ilog2 d : Int) - 1 + 1) = ((ilog2 n : Int) - (ilog2 d : Int)) := by
        ring
      rw [e, two_zpow_sub_nat, div_lt_div_iff₀ hdq hpb]
      linarith

theorem significand_eq (n d : Nat) (k : Int) (hd : 1 ≤ d) :
    ∃ N D : Nat, 0 < D ∧ significand n d k = roundHalfEven N D ∧
      (N : ℚ) / D = (n : ℚ) / d * 2 ^ k / 2 ^ lastPlace n d k := by
  have h2 : (2 : ℚ) ≠ 0 := by norm_num
  have hdq : (d : ℚ) ≠ 0 := by
    have : 0 < d := hd
    positivity
  unfold significand
  simp only []
  by_cases hs : lastPlace n d k ≤ k
  · refine ⟨n * 2 ^ (k - lastPlace n d k).toNat, d, hd, ?_, ?_⟩
    · rw [if_pos hs]
    · have e : k = lastPlace n d k + ((k - lastPlace n d k).toNat : Int) := by
        rw [Int.toNat_of_nonneg (by omega)]
        ring
      have hk : (2 : ℚ) ^ k = 2 ^ lastPlace n d k * 2 ^ (k - lastPlace n d k).toNat := by
        conv_lhs => rw [e]
        rw [zpow_add₀ h2, zpow_natCast]
      rw [hk]
      push_cast
      field_simp
      ring
  · refine ⟨n, d * 2 ^ (lastPlace n d k - k).toNat, by positivity, ?_, ?_⟩
    · rw [if_neg hs]
    · have e : lastPlace n d k = k + ((lastPlace n d k - k).toNat : Int) := by
        rw [Int.toNat_of_nonneg (by omega)]
        ring
      have hk : (2 : ℚ) ^ lastPlace n d k = 2 ^ k * 2 ^ (lastPlace n d k - k).toNat := by
        conv_lhs => rw [e]
        rw [zpow_add₀ h2, zpow_natCast]
      rw [hk]
      push_cast
      field_simp
      ring

/-- What `roundPos` returns when the number is in the range of the normal
binary64 values: a significand `m` at the last place `s`, with `2^(s+52)` not
above the number, `m` between any two integers that bracket the number in
units of the last place, and the number at most half a unit above `m`. -/
theorem roundPos_spec (negative : Bool) (n d : Nat) (k : Int) (hn : 1 ≤ n) (hd : 1 ≤ d)
    (hlo : (2 : ℚ) ^ (-1022 : Int) ≤ (n : ℚ) / d * 2 ^ k)
    (hhi : (n : ℚ) / d * 2 ^ k < 2 ^ (1023 : Int)) :
    ∃ (m : Nat) (s : Int),
      roundPos negative n d k = Float64.finite (if negative then -(m : Int) else (m : Int)) s ∧
      (2 : ℚ) ^ (s + 52) ≤ (n : ℚ) / d * 2 ^ k ∧
      (∀ C : Nat, (n : ℚ) / d * 2 ^ k ≤ (C : ℚ) * 2 ^ s → m ≤ C) ∧
      (∀ C : Nat, (C : ℚ) * 2 ^ s ≤ (n : ℚ) / d * 2 ^ k → C ≤ m) ∧
      (n : ℚ) / d * 2 ^ k ≤ ((m : ℚ) + 1 / 2) * 2 ^ s := by
  have h2 : (2 : ℚ) ≠ 0 := by norm_num
  have h12 : (1 : ℚ) < 2 := by norm_num
  obtain ⟨hf1, hf2⟩ := floorLog2_spec n d hn hd
  have hkpos : (0 : ℚ) < 2 ^ k := by positivity
  have hx1 : (2 : ℚ) ^ (floorLog2 n d + k) ≤ (n : ℚ) / d * 2 ^ k := by
    rw [zpow_add₀ h2]
    exact mul_le_mul_of_nonneg_right hf1 (le_of_lt hkpos)
  have hx2 : (n : ℚ) / d * 2 ^ k < 2 ^ (floorLog2 n d + k + 1) := by
    have e : floorLog2 n d + k + 1 = (floorLog2 n d + 1) + k := by ring
    rw [e, zpow_add₀ h2]
    exact mul_lt_mul_of_pos_right hf2 hkpos
  have hclamp : -1022 < floorLog2 n d + k + 1 :=
    (zpow_lt_zpow_iff_right₀ h12).1 (lt_of_le_of_lt hlo hx2)
  have hover : floorLog2 n d + k < 1023 :=
    (zpow_lt_zpow_iff_right₀ h12).1 (lt_of_le_of_lt hx1 hhi)
  have hs : lastPlace n d k = floorLog2 n d + k - 52 := by
    unfold lastPlace
    apply max_eq_left
    omega
  obtain ⟨N, D, hD, hm, hND⟩ := significand_eq n d k hd
  have hDq : (0 : ℚ) < D := by exact_mod_cast hD
  have hupos : (0 : ℚ) < 2 ^ lastPlace n d k := by positivity
  refine ⟨significand n d k, lastPlace n d k, ?_, ?_, ?_, ?_, ?_⟩
  · unfold roundPos
    simp only []
    rw [if_neg]
    rw [hs]
    omega
  · rw [hs]
    have e : floorLog2 n d + k - 52 + 52 = floorLog2 n d + k := by ring
    rw [e]
    exact hx1
  · intro C hC
    rw [hm]
    apply roundHalfEven_le_of_le N D C hD
    have h1 : (N : ℚ) / D ≤ C := by
      rw [hND, div_le_iff₀ hupos]
      exact hC
    rw [div_le_iff₀ hDq] at h1
    exact_mod_cast h1
  · intro C hC
    rw [hm]
    apply roundHalfEven_ge_of_ge N D C hD
    have h1 : (C : ℚ) ≤ (N : ℚ) / D := by
      rw [hND, le_div_iff₀ hupos]
      exact hC
    rw [le_div_iff₀ hDq] at h1
    exact_mod_cast h1
  · have hhalf := roundHalfEven_half N D hD
    rw [← hm] at hhalf
    have hhq : (2 : ℚ) * N ≤ 2 * ((significand n d k : ℚ) * D) + D := by exact_mod_cast hhalf
    have h1 : (N : ℚ) / D ≤ (significand n d k : ℚ) + 1 / 2 := by
      rw [div_le_iff₀ hDq]
      linarith
    rw [hND, div_le_iff₀ hupos] at h1
    exact h1

theorem two_zpow_toNat_mul (s : Int) (hs : s ≤ 0) :
    ((2 ^ (-s).toNat : Nat) : ℚ) * 2 ^ s = 1 := by
  have h2 : (2 : ℚ) ≠ 0 := by norm_num
  push_cast
  rw [← zpow_natCast, Int.toNat_of_nonneg (by omega), ← zpow_add₀ h2]
  simp

theorem ofInt_exact (negative : Bool) (N : Nat) (h1 : 1 ≤ N) (h2 : N ≤ 2 ^ 53) :
    ∃ (m : Nat) (s : Int),
      roundPos negative N 1 0 = Float64.finite (if negative then -(m : Int) else (m : Int)) s ∧
      1 ≤ m ∧ (m : ℚ) * 2 ^ s = N := by
  have h12 : (1 : ℚ) < 2 := by norm_num
  have hx : (N : ℚ) / (1 : Nat) * 2 ^ (0 : Int) = N := by simp
  have hN1 : (1 : ℚ) ≤ N := by exact_mod_cast h1
  have hN2 : (N : ℚ) ≤ 2 ^ (53 : Int) := by
    have : (N : ℚ) ≤ ((2 ^ 53 : Nat) : ℚ) := by exact_mod_cast h2
    rw [Nat.cast_pow, Nat.cast_ofNat] at this
    rw [show (53 : Int) = ((53 : Nat) : Int) from rfl, zpow_natCast]
    exact this
  have hlo : (2 : ℚ) ^ (-1022 : Int) ≤ (N : ℚ) / (1 : Nat) * 2 ^ (0 : Int) := by
    rw [hx]
    have : (2 : ℚ) ^ (-1022 : Int) ≤ 2 ^ (0 : Int) :=
      zpow_le_zpow_right₀ (le_of_lt h12) (by decide)
    simp only [zpow_zero] at this
    linarith
  have hhi : (N : ℚ) / (1 : Nat) * 2 ^ (0 : Int) < 2 ^ (1023 : Int) := by
    rw [hx]
    have : (2 : ℚ) ^ (53 : Int) < 2 ^ (1023 : Int) :=
      (zpow_lt_zpow_iff_right₀ h12).2 (by decide)
    linarith
  obtain ⟨m, s, hr, ha, hb, hc, _⟩ := roundPos_spec negative N 1 0 h1 (le_refl 1) hlo hhi
  rw [hx] at ha hb hc
  have hs1 : s + 52 ≤ 53 := (zpow_le_zpow_iff_right₀ h12).1 (le_trans ha hN2)
  have hexact : ∀ T : Nat, (N : ℚ) = (T : ℚ) * 2 ^ s → m = T := by
    intro T hT
    exact le_antisymm (hb T (le_of_eq hT)) (hc T (le_of_eq hT.symm))
  have key : ∃ T : Nat, 1 ≤ T ∧ (N : ℚ) = (T : ℚ) * 2 ^ s := by
    by_cases hs0 : s ≤ 0
    · refine ⟨N * 2 ^ (-s).toNat, ?_, ?_⟩
      · exact Nat.one_le_iff_ne_zero.2 (by positivity)
      · rw [Nat.cast_mul, mul_assoc, two_zpow_toNat_mul s hs0, mul_one]
    · have hs' : s = 1 := by omega
      subst hs'
      have h53 : (2 : ℚ) ^ (53 : Int) ≤ N := by simpa using ha
      have hN : (N : ℚ) = 2 ^ (53 : Int) := le_antisymm hN2 h53
      refine ⟨2 ^ 52, Nat.one_le_two_pow, ?_⟩
      rw [hN]
      norm_num
  obtain ⟨T, hT1, hT⟩ := key
  have hmT := hexact T hT
  refine ⟨m, s, hr, ?_, ?_⟩
  · rw [hmT]
    exact hT1
  · rw [hmT]
    exact hT.symm

theorem ceilDiv_eq_iff (rows size c : Int) (hs : 1 ≤ size) :
    ceilDiv rows size = c ↔ (c - 1) * size < rows ∧ rows ≤ c * size := by
  obtain ⟨h1, h2⟩ := ceilDiv_least rows size hs
  constructor
  · intro h
    rw [h] at h1 h2
    refine ⟨?_, h1⟩
    by_contra hcon
    have := h2 (c - 1) (by omega)
    omega
  · rintro ⟨ha, hb⟩
    apply le_antisymm (h2 c hb)
    by_contra hcon
    have hle : ceilDiv rows size ≤ c - 1 := by omega
    have : ceilDiv rows size * size ≤ (c - 1) * size :=
      Int.mul_le_mul_of_nonneg_right hle (by omega)
    omega

theorem toInt_ceil_finite (cvt : Float64 → Int) (m : Nat) (s c : Int)
    (h1 : (c : ℚ) - 1 < (m : ℚ) * 2 ^ s) (h2 : (m : ℚ) * 2 ^ s ≤ c) (hc : IsInt c) :
    Float64.toInt cvt (Float64.ceil (Float64.finite (m : Int) s)) = c := by
  have h20 : (2 : ℚ) ≠ 0 := by norm_num
  by_cases hs : 0 ≤ s
  · have hv : (m : Int) * 2 ^ s.toNat = c := by
      have e : (((m : Int) * 2 ^ s.toNat : Int) : ℚ) = (m : ℚ) * 2 ^ s := by
        push_cast
        rw [← zpow_natCast, Int.toNat_of_nonneg hs]
      have a1 : ((c - 1 : Int) : ℚ) < (((m : Int) * 2 ^ s.toNat : Int) : ℚ) := by
        rw [e]
        push_cast
        exact h1
      have a2 : (((m : Int) * 2 ^ s.toNat : Int) : ℚ) ≤ (c : ℚ) := by
        rw [e]
        exact h2
      have b1 := Int.cast_lt.1 a1
      have b2 := Int.cast_le.1 a2
      omega
    simp only [Float64.ceil, if_pos hs, Float64.toInt, hv]
    exact if_pos hc
  · have hs' : s ≤ 0 := by omega
    have hP : (0 : ℚ) < ((2 ^ (-s).toNat : Nat) : ℚ) := by positivity
    have hu : (2 : ℚ) ^ s = 1 / ((2 ^ (-s).toNat : Nat) : ℚ) := by
      rw [eq_div_iff (ne_of_gt hP), mul_comm]
      exact two_zpow_toNat_mul s hs'
    rw [hu] at h1 h2
    have a1 : (c - 1) * ((2 ^ (-s).toNat : Nat) : Int) < (m : Int) := by
      have : ((c : ℚ) - 1) * ((2 ^ (-s).toNat : Nat) : ℚ) < (m : ℚ) := by
        rw [mul_one_div, lt_div_iff₀ hP] at h1
        exact h1
      exact_mod_cast this
    have a2 : (m : Int) ≤ c * ((2 ^ (-s).toNat : Nat) : Int) := by
      have : (m : ℚ) ≤ (c : ℚ) * ((2 ^ (-s).toNat : Nat) : ℚ) := by
        rw [mul_one_div, div_le_iff₀ hP] at h2
        exact h2
      exact_mod_cast this
    have hP1 : (1 : Int) ≤ ((2 ^ (-s).toNat : Nat) : Int) := by
      exact_mod_cast Nat.one_le_two_pow
    have hv : -(-(m : Int) / 2 ^ (-s).toNat) = c := by
      have := (ceilDiv_eq_iff (m : Int) ((2 ^ (-s).toNat : Nat) : Int) c hP1).2 ⟨a1, a2⟩
      unfold ceilDiv at this
      push_cast at this
      exact this
    simp only [Float64.ceil, if_neg hs, hv, Float64.toInt, le_refl, if_true, Int.toNat_zero,
      pow_zero, mul_one]
    exact if_pos hc

/-- The arithmetic heart of the exactness below `2^53`: a binary64 nearest
to `rows / size` has the same ceiling as `rows / size`. -/
theorem ceil_of_nearest (x : ℚ) (rows size c : Int) (m : Nat) (s : Int)
    (hx : x = (rows : ℚ) / size) (hsize : 1 ≤ size) (hrows : rows ≤ 2 ^ 53)
    (hc1 : (c - 1) * size < rows) (hc2 : rows ≤ c * size) (hcpos : 1 ≤ c)
    (ha : (2 : ℚ) ^ (s + 52) ≤ x)
    (hb : ∀ C : Nat, x ≤ (C : ℚ) * 2 ^ s → m ≤ C)
    (hcc : ∀ C : Nat, (C : ℚ) * 2 ^ s ≤ x → C ≤ m)
    (hd : x ≤ ((m : ℚ) + 1 / 2) * 2 ^ s) :
    (c : ℚ) - 1 < (m : ℚ) * 2 ^ s ∧ (m : ℚ) * 2 ^ s ≤ c := by
  have h20 : (2 : ℚ) ≠ 0 := by norm_num
  have h12 : (1 : ℚ) < 2 := by norm_num
  have hsq : (0 : ℚ) < size := by exact_mod_cast (show (0 : Int) < size by omega)
  have hu : (0 : ℚ) < 2 ^ s := by positivity
  have hrq : (rows : ℚ) ≤ 2 ^ (53 : Nat) := by exact_mod_cast hrows
  have hxc1 : (c : ℚ) - 1 < x := by
    rw [hx, lt_div_iff₀ hsq]
    exact_mod_cast hc1
  have hxc2 : x ≤ c := by
    rw [hx, div_le_iff₀ hsq]
    exact_mod_cast hc2
  have hxrows : x * size = rows := by
    rw [hx]
    field_simp
  have hx53 : x ≤ 2 ^ (53 : Nat) := by
    have h1 : (1 : ℚ) ≤ size := by exact_mod_cast hsize
    have hxpos : 0 ≤ x := le_trans (le_of_lt (by positivity)) ha
    nlinarith
  have ha' : (2 : ℚ) ^ s * 2 ^ (52 : Nat) ≤ x := by
    rw [zpow_add₀ h20, show (52 : Int) = ((52 : Nat) : Int) from rfl, zpow_natCast] at ha
    exact ha
  -- the number is on the grid: the rounding is exact
  have hexact : ∀ T : Nat, x = (T : ℚ) * 2 ^ s →
      (c : ℚ) - 1 < (m : ℚ) * 2 ^ s ∧ (m : ℚ) * 2 ^ s ≤ c := by
    intro T hT
    have hm : m = T := le_antisymm (hb T (le_of_eq hT)) (hcc T (le_of_eq hT.symm))
    rw [hm, ← hT]
    exact ⟨hxc1, hxc2⟩
  by_cases hs0 : s ≤ 0
  · have hPu := two_zpow_toNat_mul s hs0
    have hcnat : ((c.toNat : Nat) : ℚ) = c := by
      have : ((c.toNat : Nat) : Int) = c := Int.toNat_of_nonneg (by omega)
      exact_mod_cast this
    have hc1nat : (((c - 1).toNat : Nat) : ℚ) = (c : ℚ) - 1 := by
      have : (((c - 1).toNat : Nat) : Int) = c - 1 := Int.toNat_of_nonneg (by omega)
      exact_mod_cast this
    have hup : (m : ℚ) * 2 ^ s ≤ c := by
      have hC : x ≤ ((c.toNat * 2 ^ (-s).toNat : Nat) : ℚ) * 2 ^ s := by
        rw [Nat.cast_mul, mul_assoc, hPu, mul_one, hcnat]
        exact hxc2
      have hmC : (m : ℚ) ≤ ((c.toNat * 2 ^ (-s).toNat : Nat) : ℚ) := by
        exact_mod_cast hb _ hC
      calc (m : ℚ) * 2 ^ s ≤ ((c.toNat * 2 ^ (-s).toNat : Nat) : ℚ) * 2 ^ s :=
            mul_le_mul_of_nonneg_right hmC (le_of_lt hu)
        _ = c := by rw [Nat.cast_mul, mul_assoc, hPu, mul_one, hcnat]
    refine ⟨?_, hup⟩
    by_contra hcon
    have hle : (m : ℚ) * 2 ^ s ≤ (c : ℚ) - 1 := not_lt.1 hcon
    -- then the number is at least `1 / size` above `m` units, yet within half a unit
    have hgap : (c : ℚ) - 1 + 1 / size ≤ x := by
      rw [hx, ← sub_nonneg]
      have hint : ((c - 1) * size + 1 : Int) ≤ rows := by omega
      have hq : ((c : ℚ) - 1) * size + 1 ≤ rows := by exact_mod_cast hint
      have : (rows : ℚ) / size - ((c : ℚ) - 1 + 1 / size)
          = ((rows : ℚ) - (((c : ℚ) - 1) * size + 1)) / size := by
        field_simp
      rw [this]
      apply div_nonneg
      · linarith
      · exact le_of_lt hsq
    have hhalf : 1 / (size : ℚ) ≤ 2 ^ s / 2 := by
      have : x ≤ (c : ℚ) - 1 + 2 ^ s / 2 := by
        calc x ≤ ((m : ℚ) + 1 / 2) * 2 ^ s := hd
          _ = (m : ℚ) * 2 ^ s + 2 ^ s / 2 := by ring
          _ ≤ (c : ℚ) - 1 + 2 ^ s / 2 := by linarith
      linarith
    have h2le : (2 : ℚ) ≤ size * 2 ^ s := by
      rw [div_le_iff₀ hsq] at hhalf
      linarith
    have hle2 : (size : ℚ) * 2 ^ s * 2 ^ (52 : Nat) ≤ 2 ^ (53 : Nat) := by
      calc (size : ℚ) * 2 ^ s * 2 ^ (52 : Nat) = (2 ^ s * 2 ^ (52 : Nat)) * size := by ring
        _ ≤ x * size := mul_le_mul_of_nonneg_right ha' (le_of_lt hsq)
        _ = rows := hxrows
        _ ≤ 2 ^ (53 : Nat) := hrq
    have hsu : (size : ℚ) * 2 ^ s = 2 := by
      apply le_antisymm _ h2le
      have : (size : ℚ) * 2 ^ s * 2 ^ (52 : Nat) ≤ 2 * 2 ^ (52 : Nat) := by
        calc (size : ℚ) * 2 ^ s * 2 ^ (52 : Nat) ≤ 2 ^ (53 : Nat) := hle2
          _ = 2 * 2 ^ (52 : Nat) := by norm_num
      exact le_of_mul_le_mul_right this (by positivity)
    have hxs : x * size = (((2 ^ 52 : Nat) : ℚ) * 2 ^ s) * size := by
      apply le_antisymm
      · calc x * size = rows := hxrows
          _ ≤ 2 ^ (53 : Nat) := hrq
          _ = 2 ^ (52 : Nat) * 2 := by norm_num
          _ = 2 ^ (52 : Nat) * ((size : ℚ) * 2 ^ s) := by rw [hsu]
          _ = (((2 ^ 52 : Nat) : ℚ) * 2 ^ s) * size := by
              push_cast
              ring
      · have : ((2 ^ 52 : Nat) : ℚ) * 2 ^ s = 2 ^ s * 2 ^ (52 : Nat) := by
          push_cast
          ring
        rw [this]
        exact mul_le_mul_of_nonneg_right ha' (le_of_lt hsq)
    have hxT : x = ((2 ^ 52 : Nat) : ℚ) * 2 ^ s :=
      mul_right_cancel₀ (ne_of_gt hsq) hxs
    exact hcon (hexact _ hxT).1
  · have hs1 : s + 52 ≤ 53 := by
      have : (2 : ℚ) ^ (s + 52) ≤ 2 ^ ((53 : Nat) : Int) := by
        rw [zpow_natCast]
        exact le_trans ha hx53
      exact_mod_cast (zpow_le_zpow_iff_right₀ h12).1 this
    have hs' : s = 1 := by omega
    subst hs'
    apply hexact (2 ^ 52)
    apply le_antisymm
    · calc x ≤ 2 ^ (53 : Nat) := hx53
        _ = ((2 ^ 52 : Nat) : ℚ) * 2 ^ (1 : Int) := by norm_num
    · calc ((2 ^ 52 : Nat) : ℚ) * 2 ^ (1 : Int) = 2 ^ ((1 : Int) + 52) := by norm_num
        _ ≤ x := ha

theorem ofInt_pos_exact (n : Int) (h1 : 1 ≤ n) (h2 : n ≤ 2 ^ 53) :
    ∃ (m : Nat) (s : Int),
      Float64.ofInt n = Float64.finite (m : Int) s ∧ 1 ≤ m ∧ (m : ℚ) * 2 ^ s = n := by
  have hn0 : n ≠ 0 := by omega
  have hneg : decide (n < 0) = false := by
    rw [decide_eq_false_iff_not]
    omega
  obtain ⟨m, s, hr, hm, hv⟩ := ofInt_exact false n.natAbs (by omega) (by omega)
  refine ⟨m, s, ?_, hm, ?_⟩
  · unfold Float64.ofInt
    rw [if_neg hn0, hneg, hr]
    rfl
  · rw [hv]
    have h : ((n.natAbs : Nat) : Int) = n := Int.natAbs_of_nonneg (by omega)
    calc ((n.natAbs : Nat) : ℚ) = (((n.natAbs : Nat) : Int) : ℚ) := (Int.cast_natCast _).symm
      _ = (n : ℚ) := by rw [h]

/-- The source's expression `int(math.Ceil(float64(rows) / float64(size)))`
is the exact ceiling of `rows / size` whenever `0 ≤ rows ≤ 2^53` and
`1 ≤ size ≤ 2^53`. -/
theorem float_ceil_exact (cvt : Float64 → Int) (rows size : Int)
    (hr0 : 0 ≤ rows) (hr : rows ≤ 2 ^ 53) (hs1 : 1 ≤ size) (hs : size ≤ 2 ^ 53) :
    Float64.toInt cvt (Float64.ceil (Float64.div (Float64.ofInt rows) (Float64.ofInt size)))
      = ceilDiv rows size := by
  have h20 : (2 : ℚ) ≠ 0 := by norm_num
  have h12 : (1 : ℚ) < 2 := by norm_num
  obtain ⟨mS, sS, hS, hmS, hvS⟩ := ofInt_pos_exact size hs1 hs
  have hmS0 : (mS : Int) ≠ 0 := by omega
  by_cases hz : rows = 0
  · subst hz
    have h0 : Float64.ofInt 0 = Float64.finite 0 0 := rfl
    rw [h0, hS, ceilDiv_zero]
    simp only [Float64.div, if_neg hmS0, if_true]
    rfl
  · have hr1 : 1 ≤ rows := by omega
    obtain ⟨mR, sR, hR, hmR, hvR⟩ := ofInt_pos_exact rows hr1 hr
    have hmR0 : (mR : Int) ≠ 0 := by omega
    have hnegR : decide ((mR : Int) < 0) = false := by
      rw [decide_eq_false_iff_not]
      omega
    have hnegS : decide ((mS : Int) < 0) = false := by
      rw [decide_eq_false_iff_not]
      omega
    have hdiv : Float64.div (Float64.finite (mR : Int) sR) (Float64.finite (mS : Int) sS)
        = roundPos false mR mS (sR - sS) := by
      simp only [Float64.div, if_neg hmS0, if_neg hmR0, hnegR, hnegS, Int.natAbs_ofNat]
      rfl
    have hmSq : (0 : ℚ) < mS := by exact_mod_cast hmS
    have hsizeq : (0 : ℚ) < size := by exact_mod_cast (show (0 : Int) < size by omega)
    have hx : (mR : ℚ) / mS * 2 ^ (sR - sS) = (rows : ℚ) / size := by
      rw [← hvR, ← hvS, zpow_sub₀ h20]
      field_simp
    have hrows1 : (1 : ℚ) ≤ rows := by exact_mod_cast hr1
    have hrows2 : (rows : ℚ) ≤ 2 ^ (53 : Nat) := by exact_mod_cast hr
    have hsize1 : (1 : ℚ) ≤ size := by exact_mod_cast hs1
    have hsize2 : (size : ℚ) ≤ 2 ^ (53 : Nat) := by exact_mod_cast hs
    have hlo : (2 : ℚ) ^ (-1022 : Int) ≤ (mR : ℚ) / mS * 2 ^ (sR - sS) := by
      rw [hx]
      have a : (2 : ℚ) ^ (-1022 : Int) ≤ 2 ^ (-53 : Int) :=
        zpow_le_zpow_right₀ (le_of_lt h12) (by decide)
      have b : (2 : ℚ) ^ (-53 : Int) = 1 / 2 ^ (53 : Nat) := by
        rw [show (-53 : Int) = -((53 : Nat) : Int) from rfl, zpow_neg, zpow_natCast, one_div]
      have c : (1 : ℚ) / 2 ^ (53 : Nat) ≤ (rows : ℚ) / size := by
        rw [div_le_div_iff₀ (by positivity) hsizeq]
        nlinarith
      linarith
    have hhi : (mR : ℚ) / mS * 2 ^ (sR - sS) < 2 ^ (1023 : Int) := by
      rw [hx]
      have a : (2 : ℚ) ^ ((53 : Nat) : Int) < 2 ^ (1023 : Int) :=
        (zpow_lt_zpow_iff_right₀ h12).2 (by decide)
      rw [zpow_natCast] at a
      have c : (rows : ℚ) / size ≤ 2 ^ (53 : Nat) := by
        rw [div_le_iff₀ hsizeq]
        nlinarith
      linarith
    obtain ⟨m, s, hq, ha, hb, hc, hd⟩ :=
      roundPos_spec false mR mS (sR - sS) hmR hmS hlo hhi
    rw [hx] at ha hb hc hd
    obtain ⟨hc1, hc2⟩ := (ceilDiv_eq_iff rows size (ceilDiv rows size) hs1).1 rfl
    have hcpos : 1 ≤ ceilDiv rows size := by
      by_contra hcon
      have hle : ceilDiv rows size ≤ 0 := by omega
      have : ceilDiv rows size * size ≤ 0 * size :=
        Int.mul_le_mul_of_nonneg_right hle (by omega)
      omega
    have hcle : ceilDiv rows size ≤ rows := by
      have h1 : 0 ≤ ceilDiv rows size - 1 := by omega
      have : (ceilDiv rows size - 1) * 1 ≤ (ceilDiv rows size - 1) * size :=
        Int.mul_le_mul_of_nonneg_left hs1 h1
      omega
    have hcint : IsInt (ceilDiv rows size) := by
      unfold IsInt minInt maxInt
      omega
    obtain ⟨hy1, hy2⟩ := ceil_of_nearest ((rows : ℚ) / size) rows size (ceilDiv rows size) m s
      rfl hs1 hr hc1 hc2 hcpos ha hb hc hd
    rw [hR, hS, hdiv, hq]
    exact toInt_ceil_finite cvt m s (ceilDiv rows size) hy1 hy2 hcint

namespace Pagination

/-! ## The handlers, case by case -/

theorem onSubmit_eq (p : Pagination) :
    onSubmit p =
      { p with calls := if p.OnChange then p.calls ++ [(p.page, p.pageSize)] else p.calls } := by
  obtain ⟨pg, sz, tp, tr, oc, cs, d⟩ := p
  cases oc <;> simp [onSubmit]

theorem handlePreClick_of_eq (p : Pagination) (h : p.page = 1) : handlePreClick p = p := by
  unfold handlePreClick
  simp only []
  rw [if_pos h]

theorem handlePreClick_of_ne (p : Pagination) (h : p.page ≠ 1) :
    handlePreClick p =
      { p with page := wrapInt (p.page - 1),
               calls := if p.OnChange then p.calls ++ [(wrapInt (p.page - 1), p.pageSize)]
                        else p.calls } := by
  unfold handlePreClick
  simp only []
  rw [if_neg h, onSubmit_eq]

theorem handleNextClick_of_ge (p : Pagination) (h : p.totalPages ≤ p.page) :
    handleNextClick p = p := by
  unfold handleNextClick
  simp only []
  rw [if_pos h]

theorem handleNextClick_of_lt (p : Pagination) (h : p.page < p.totalPages) :
    handleNextClick p =
      { p with page := wrapInt (p.page + 1),
               calls := if p.OnChange then p.calls ++ [(wrapInt (p.page + 1), p.pageSize)]
                        else p.calls } := by
  unfold handleNextClick
  simp only []
  rw [if_neg (by omega), onSubmit_eq]

/-! ## C1: the stored total-page count -/

/-- C1 (failing input).  With `totalRows = 2^53 + 1` and `pageSize = 1`, both
values of `int`, `setTotalPages` stores `2^53`: `float64(rows)` rounds the
row count to `2^53`.  The exact ceiling is `2^53 + 1`, and the stored count
times the page size is below the row count. -/
theorem setTotalPages_loses_a_page (cvt : Float64 → Int) :
    (setTotalPages cvt
        { page := 1, pageSize := 1, totalPages := 0, totalRows := 9007199254740993,
          OnChange := false, calls := [], defaultPageSize := 1 }).totalPages
      = 9007199254740992 ∧
    IsInt 9007199254740993 ∧
    ceilDiv 9007199254740993 1 = 9007199254740993 ∧
    (9007199254740992 : Int) * 1 < 9007199254740993 := by
  refine ⟨rfl, by decide, by decide, by decide⟩

/-- Below the failing input the stored count is the exact ceiling: for
`0 ≤ totalRows ≤ 2^53` and `1 ≤ pageSize ≤ 2^53`, `setTotalPages` stores
`ceil(totalRows / pageSize)` and changes nothing else. -/
theorem setTotalPages_exact (cvt : Float64 → Int) (p : Pagination)
    (hr0 : 0 ≤ p.totalRows) (hr : p.totalRows ≤ 2 ^ 53)
    (hs1 : 1 ≤ p.pageSize) (hs : p.pageSize ≤ 2 ^ 53) :
    setTotalPages cvt p = { p with totalPages := ceilDiv p.totalRows p.pageSize } := by
  unfold setTotalPages
  simp only []
  rw [float_ceil_exact cvt p.totalRows p.pageSize hr0 hr hs1 hs]

theorem setTotalPages_exact_witness :
    setTotalPages cvtAmd64
        { page := 1, pageSize := 10, totalPages := 0, totalRows := 95, OnChange := false,
          calls := [], defaultPageSize := 10 }
      = { page := 1, pageSize := 10, totalPages := 10, totalRows := 95, OnChange := false,
          calls := [], defaultPageSize := 10 } :=
  setTotalPages_exact cvtAmd64
    { page := 1, pageSize := 10, totalPages := 0, totalRows := 95, OnChange := false,
      calls := [], defaultPageSize := 10 }
    (by decide) (by decide) (by decide) (by decide)

/-! ## C3, C4: the two buttons -/

/-- C3 (counterexample).  In the state made by `NewPagination()` the page (1)
differs from the total-page count (0), yet `handleNextClick` changes nothing:
the page is not incremented. -/
theorem handleNextClick_new_not_incremented :
    NewPagination.page ≠ NewPagination.totalPages ∧
    handleNextClick NewPagination = NewPagination ∧
    (handleNextClick NewPagination).page ≠ NewPagination.page + 1 := by
  decide

/-- C3 (amended).  `handleNextClick` leaves the whole state unchanged, and so
calls nothing, when `page ≥ totalPages`; when `page < totalPages` it
increments `page` by exactly 1, leaves every other field unchanged, and calls
`OnChange` (if set) once with the new page and the page size. -/
theorem handleNextClick_spec (p : Pagination) (hp : IsInt p.page) (ht : IsInt p.totalPages) :
    (p.totalPages ≤ p.page → handleNextClick p = p) ∧
    (p.page < p.totalPages →
      handleNextClick p =
        { p with page := p.page + 1,
                 calls := if p.OnChange then p.calls ++ [(p.page + 1, p.pageSize)]
                          else p.calls }) := by
  constructor
  · intro h
    simp [handleNextClick, h]
  · intro h
    have hw : wrapInt (p.page + 1) = p.page + 1 := by
      apply wrapInt_of_isInt
      unfold IsInt minInt maxInt at *
      omega
    have hn : ¬ p.totalPages ≤ p.page := by omega
    simp only [handleNextClick, ge_iff_le, hn, if_false, hw, onSubmit]
    cases hc : p.OnChange <;> simp

theorem handleNextClick_spec_witness :
    IsInt 3 ∧ IsInt 10 ∧ (3 : Int) < 10 ∧
    handleNextClick
        { page := 3, pageSize := 10, totalPages := 10, totalRows := 95, OnChange := true,
          calls := [], defaultPageSize := 10 }
      = { page := 4, pageSize := 10, totalPages := 10, totalRows := 95, OnChange := true,
          calls := [(4, 10)], defaultPageSize := 10 } :=
  ⟨by decide, by decide, by decide,
    (handleNextClick_spec
      { page := 3, pageSize := 10, totalPages := 10, totalRows := 95, OnChange := true,
        calls := [], defaultPageSize := 10 }
      (by decide) (by decide)).2 (by decide)⟩

/-- C4.  `handlePreClick` leaves the whole state unchanged, and so calls
nothing, when `page = 1`; in every other state it decrements `page` by
exactly 1 (`current--` in `int` arithmetic, which is `page - 1` for every
page above the smallest `int`), leaves every other field unchanged, and calls
`OnChange` (if set) once with the new page and the page size. -/
theorem handlePreClick_spec (p : Pagination) :
    (p.page = 1 → handlePreClick p = p) ∧
    (p.page ≠ 1 →
      handlePreClick p =
        { p with page := wrapInt (p.page - 1),
                 calls := if p.OnChange then p.calls ++ [(wrapInt (p.page - 1), p.pageSize)]
                          else p.calls } ∧
      (minInt < p.page → p.page ≤ maxInt → wrapInt (p.page - 1) = p.page - 1)) := by
  constructor
  · intro h
    simp [handlePreClick, h]
  · intro h
    constructor
    · simp only [handlePreClick, h, if_false, onSubmit]
      cases hc : p.OnChange <;> simp
    · intro h1 h2
      apply wrapInt_of_isInt
      unfold IsInt
      unfold minInt at *
      unfold maxInt at *
      omega

theorem handlePreClick_spec_witness :
    (3 : Int) ≠ 1 ∧
    handlePreClick
        { page := 3, pageSize := 10, totalPages := 10, totalRows := 95, OnChange := true,
          calls := [], defaultPageSize := 10 }
      = { page := 2, pageSize := 10, totalPages := 10, totalRows := 95, OnChange := true,
          calls := [(2, 10)], defaultPageSize := 10 } :=
  ⟨by decide,
    ((handlePreClick_spec
      { page := 3, pageSize := 10, totalPages := 10, totalRows := 95, OnChange := true,
        calls := [], defaultPageSize := 10 }).2 (by decide)).1⟩

/-! ## C5, C6: the page entry -/

/-- The validator's decision, exactly as the source takes it. -/
theorem checkPage_eq_none_iff (p : Pagination) (target : Int) :
    checkPage p target = none ↔ 1 ≤ target ∧ (p.totalPages = 0 ∨ target ≤ p.totalPages) := by
  unfold checkPage GetTotalPages
  by_cases h1 : target < 1
  · simp only [h1, if_true]
    constructor
    · intro h
      cases h
    · intro h
      omega
  · by_cases h2 : p.totalPages = 0
    · simp only [h1, h2, if_false, if_true]
      constructor
      · intro _
        exact ⟨by omega, Or.inl trivial⟩
      · intro _
        trivial
    · by_cases h3 : target > p.totalPages
      · simp only [h1, h2, h3, if_false, if_true]
        constructor
        · intro h
          cases h
        · rintro ⟨_, hz | hle⟩
          · exact hz.elim
          · omega
      · simp only [h1, h2, h3, if_false]
        constructor
        · intro _
          exact ⟨by omega, Or.inr (by omega)⟩
        · intro _
          trivial

theorem curPageValidator_of_atoi (p : Pagination) (s : String) (target : Int)
    (h : Atoi s = Except.ok target) : curPageValidator p s = checkPage p target := by
  simp [curPageValidator, h]

theorem curPageValidator_of_atoi_error (p : Pagination) (s : String) (err : NumError)
    (h : Atoi s = Except.error err) : curPageValidator p s = some (EntryError.atoi err) := by
  simp [curPageValidator, h]

theorem curPageOnSubmitted_rejected (p : Pagination) (s : String)
    (h : curPageValidator p s ≠ none) : curPageOnSubmitted p s = p := by
  unfold curPageOnSubmitted
  cases hv : curPageValidator p s with
  | none => exact absurd hv h
  | some e => rfl

theorem jumpToPage_accepted (p : Pagination) (s : String) (target : Int)
    (h : Atoi s = Except.ok target) (hc : checkPage p target = none) :
    jumpToPage p s =
      Except.ok
        { p with page := target,
                 calls := if p.OnChange then p.calls ++ [(target, p.pageSize)] else p.calls } := by
  have hv : curPageValidator { p with page := target } s = none := by
    rw [curPageValidator_of_atoi _ s target h]
    exact hc
  simp only [jumpToPage, h, hc, curPageOnSubmitted, hv, onSubmit_eq]

theorem jumpToPage_rejected (p : Pagination) (s : String) (target : Int) (err : EntryError)
    (h : Atoi s = Except.ok target) (hc : checkPage p target = some err) :
    jumpToPage p s = Except.error err := by
  simp only [jumpToPage, h, hc]

theorem jumpToPage_of_atoi_error (p : Pagination) (s : String) (err : NumError)
    (h : Atoi s = Except.error err) :
    jumpToPage p s = Except.error (EntryError.atoi err) := by
  simp only [jumpToPage, h]

theorem atoi_error_of_not_decimal (s : String) (h : isDecimalText s = false) :
    ∃ err, Atoi s = Except.error err := by
  cases ha : Atoi s with
  | error err => exact ⟨err, rfl⟩
  | ok n =>
    have := Atoi_isDecimalText s n ha
    rw [h] at this
    cases this

/-- C5 (counterexample).  On amd64, `SetDefaultPageSize(1)` then
`SetTotalRows(9223372036854775807)` leaves `totalPages = -2^63`
(`float64(rows)` is `2^63`, which `int` cannot hold).  In that state the
validator rejects the text "1", although neither `1 < 1` nor
`totalPages > 0` holds. -/
theorem curPageValidator_rejects_at_negative_totalPages :
    run cvtAmd64 [Op.setDefaultPageSize 1, Op.setTotalRows 9223372036854775807]
        NewPagination =
      some { page := 1, pageSize := 1, totalPages := -9223372036854775808,
             totalRows := 9223372036854775807, OnChange := false, calls := [],
             defaultPageSize := 1 } ∧
    Atoi "1" = Except.ok 1 ∧
    curPageValidator
        { page := 1, pageSize := 1, totalPages := -9223372036854775808,
          totalRows := 9223372036854775807, OnChange := false, calls := [],
          defaultPageSize := 1 } "1"
      = some EntryError.pageTooBig ∧
    ¬ ((1 : Int) < 1 ∨
        ((0 : Int) < -9223372036854775808 ∧ (-9223372036854775808 : Int) < 1)) := by
  decide

theorem curPageOnSubmitted_accepted (p : Pagination) (s : String)
    (h : curPageValidator p s = none) :
    curPageOnSubmitted p s =
      { p with calls := if p.OnChange then p.calls ++ [(p.page, p.pageSize)] else p.calls } := by
  unfold curPageOnSubmitted
  rw [h]
  exact onSubmit_eq p

/-- C5 (amended).  For every state and every integer target, the page-entry
validator returns an error if and only if `target < 1` or (`totalPages ≠ 0`
and `target > totalPages`); in every state with `totalPages ≥ 0` that is the
condition `target < 1` or (`totalPages > 0` and `target > totalPages`).  Text
that `Atoi` fails on, text that is not a decimal integer included, is always
rejected.  On acceptance the submit handler changes no field and calls
`OnChange` (if set) once with the `(page, pageSize)` held by the state; the
handler itself does not store the entered number. -/
theorem curPageValidator_spec (p : Pagination) :
    (∀ target : Int,
      checkPage p target ≠ none ↔
        target < 1 ∨ (p.totalPages ≠ 0 ∧ p.totalPages < target)) ∧
    (∀ (s : String) (target : Int), Atoi s = Except.ok target →
      (curPageValidator p s ≠ none ↔
        target < 1 ∨ (p.totalPages ≠ 0 ∧ p.totalPages < target))) ∧
    (0 ≤ p.totalPages →
      ∀ (s : String) (target : Int), Atoi s = Except.ok target →
        (curPageValidator p s ≠ none ↔
          target < 1 ∨ (0 < p.totalPages ∧ p.totalPages < target))) ∧
    (∀ (s : String) (err : NumError), Atoi s = Except.error err →
      curPageValidator p s = some (EntryError.atoi err)) ∧
    (∀ s : String, isDecimalText s = false → curPageValidator p s ≠ none) ∧
    (∀ s : String, curPageValidator p s = none →
      curPageOnSubmitted p s =
        { p with calls := if p.OnChange then p.calls ++ [(p.page, p.pageSize)]
                          else p.calls }) := by
  have key : ∀ target : Int,
      checkPage p target ≠ none ↔
        target < 1 ∨ (p.totalPages ≠ 0 ∧ p.totalPages < target) := by
    intro target
    rw [Ne, checkPage_eq_none_iff]
    constructor
    · intro h
      by_contra hcon
      apply h
      constructor
      · omega
      · by_cases hz : p.totalPages = 0
        · exact Or.inl hz
        · right
          by_contra hgt
          apply hcon
          right
          exact ⟨hz, by omega⟩
    · intro h hok
      rcases h with h | ⟨hne, hlt⟩
      · omega
      · rcases hok.2 with hz | hle
        · exact hne hz
        · omega
  refine ⟨key, ?_, ?_, ?_, ?_, ?_⟩
  · intro s target ha
    rw [curPageValidator_of_atoi p s target ha]
    exact key target
  · intro h0 s target ha
    rw [curPageValidator_of_atoi p s target ha, key target]
    constructor
    · rintro (h | ⟨hne, hlt⟩)
      · exact Or.inl h
      · exact Or.inr ⟨by omega, hlt⟩
    · rintro (h | ⟨hpos, hlt⟩)
      · exact Or.inl h
      · exact Or.inr ⟨by omega, hlt⟩
  · intro s err ha
    exact curPageValidator_of_atoi_error p s err ha
  · intro s hs
    obtain ⟨err, ha⟩ := atoi_error_of_not_decimal s hs
    rw [curPageValidator_of_atoi_error p s err ha]
    exact Option.some_ne_none _
  · intro s hv
    exact curPageOnSubmitted_accepted p s hv

theorem curPageValidator_spec_witness :
    (0 : Int) ≤ 10 ∧ Atoi "11" = Except.ok 11 ∧
    (curPageValidator
        { page := 3, pageSize := 10, totalPages := 10, totalRows := 95, OnChange := true,
          calls := [], defaultPageSize := 10 } "11" ≠ none ↔
      (11 : Int) < 1 ∨ ((0 : Int) < 10 ∧ (10 : Int) < 11)) ∧
    curPageValidator
        { page := 7, pageSize := 10, totalPages := 10, totalRows := 95, OnChange := true,
          calls := [], defaultPageSize := 10 } "7" = none ∧
    curPageOnSubmitted
        { page := 7, pageSize := 10, totalPages := 10, totalRows := 95, OnChange := true,
          calls := [], defaultPageSize := 10 } "7"
      = { page := 7, pageSize := 10, totalPages := 10, totalRows := 95, OnChange := true,
          calls := [(7, 10)], defaultPageSize := 10 } :=
  ⟨by decide, by decide,
    (curPageValidator_spec
      { page := 3, pageSize := 10, totalPages := 10, totalRows := 95, OnChange := true,
        calls := [], defaultPageSize := 10 }).2.2.1 (by decide) "11" 11 (by decide),
    by decide,
    (curPageValidator_spec
      { page := 7, pageSize := 10, totalPages := 10, totalRows := 95, OnChange := true,
        calls := [], defaultPageSize := 10 }).2.2.2.2.2 "7" (by decide)⟩

/-- C6 (counterexample).  In the state made by `NewPagination()` the
total-page count is 0, and the text "1", which is `totalPages + 1`, passes
the validator: `jumpToPage` succeeds. -/
theorem jumpToPage_new_accepts_one :
    NewPagination.totalPages = 0 ∧
    Atoi "1" = Except.ok (NewPagination.totalPages + 1) ∧
    curPageValidator NewPagination "1" = none ∧
    jumpToPage NewPagination "1" = Except.ok { NewPagination with page := 1 } := by
  decide

/-- C6 (amended).  In every state `jumpToPage(0)` fails validation, and in
every state with `totalPages ≥ 1` so does `jumpToPage(totalPages + 1)`; on
both the submit handler leaves the whole state unchanged and calls
nothing. -/
theorem jumpToPage_out_of_range (p : Pagination) (s : String) :
    (Atoi s = Except.ok 0 →
      curPageValidator p s = some EntryError.pageTooSmall ∧
      jumpToPage p s = Except.error EntryError.pageTooSmall ∧
      curPageOnSubmitted p s = p) ∧
    (1 ≤ p.totalPages → Atoi s = Except.ok (p.totalPages + 1) →
      curPageValidator p s = some EntryError.pageTooBig ∧
      jumpToPage p s = Except.error EntryError.pageTooBig ∧
      curPageOnSubmitted p s = p) := by
  constructor
  · intro ha
    have hc : checkPage p 0 = some EntryError.pageTooSmall := by
      simp [checkPage]
    have hv : curPageValidator p s = some EntryError.pageTooSmall := by
      rw [curPageValidator_of_atoi p s 0 ha, hc]
    refine ⟨hv, jumpToPage_rejected p s 0 _ ha hc, curPageOnSubmitted_rejected p s ?_⟩
    rw [hv]
    simp
  · intro h1 ha
    have hc : checkPage p (p.totalPages + 1) = some EntryError.pageTooBig := by
      have a1 : ¬ (p.totalPages + 1 < 1) := by omega
      have a2 : ¬ (p.totalPages = 0) := by omega
      have a3 : p.totalPages + 1 > p.totalPages := by omega
      simp only [checkPage, GetTotalPages, a1, a2, a3, if_false, if_true]
    have hv : curPageValidator p s = some EntryError.pageTooBig := by
      rw [curPageValidator_of_atoi p s _ ha, hc]
    refine ⟨hv, jumpToPage_rejected p s _ _ ha hc, curPageOnSubmitted_rejected p s ?_⟩
    rw [hv]
    simp

theorem jumpToPage_out_of_range_witness :
    Atoi "11" = Except.ok (10 + 1) ∧ Atoi "0" = Except.ok 0 ∧ (1 : Int) ≤ 10 ∧
    jumpToPage
        { page := 3, pageSize := 10, totalPages := 10, totalRows := 95, OnChange := true,
          calls := [], defaultPageSize := 10 } "11"
      = Except.error EntryError.pageTooBig ∧
    jumpToPage
        { page := 3, pageSize := 10, totalPages := 10, totalRows := 95, OnChange := true,
          calls := [], defaultPageSize := 10 } "0"
      = Except.error EntryError.pageTooSmall :=
  ⟨by decide, by decide, by decide,
   ((jumpToPage_out_of_range
      { page := 3, pageSize := 10, totalPages := 10, totalRows := 95, OnChange := true,
        calls := [], defaultPageSize := 10 } "11").2 (by decide) (by decide)).2.1,
   ((jumpToPage_out_of_range
      { page := 3, pageSize := 10, totalPages := 10, totalRows := 95, OnChange := true,
        calls := [], defaultPageSize := 10 } "0").1 (by decide)).2.1⟩

/-! ## C2: `SetTotalRows` -/

theorem setTotalPages_eq (cvt : Float64 → Int) (p : Pagination) :
    setTotalPages cvt p = { p with totalPages := pagesOf cvt p.totalRows p.pageSize } := rfl

/-- What `SetTotalRows` does in every state: page 1, the default page size,
the new row count, the page count of `setTotalPages`, and one call of
`OnChange` (if set) with `(1, defaultPageSize)`.  The previous page, page
size, row count and page count do not occur in the result. -/
theorem SetTotalRows_eq (cvt : Float64 → Int) (p : Pagination) (total : Int) :
    SetTotalRows cvt p total =
      { page := 1, pageSize := p.defaultPageSize,
        totalPages := pagesOf cvt total p.defaultPageSize, totalRows := total,
        OnChange := p.OnChange,
        calls := if p.OnChange then p.calls ++ [(1, p.defaultPageSize)] else p.calls,
        defaultPageSize := p.defaultPageSize } := by
  simp only [SetTotalRows, onSubmit_eq, setTotalPages_eq, Reset, firstPage]

theorem pagesOf_exact (cvt : Float64 → Int) (rows size : Int)
    (hr0 : 0 ≤ rows) (hr : rows ≤ 2 ^ 53) (hs1 : 1 ≤ size) (hs : size ≤ 2 ^ 53) :
    pagesOf cvt rows size = ceilDiv rows size :=
  float_ceil_exact cvt rows size hr0 hr hs1 hs

/-- Up to `2^53` rows and a default page size up to `2^53`, `SetTotalRows`
does all that C2 says, the exact ceiling included. -/
theorem SetTotalRows_exact (cvt : Float64 → Int) (p : Pagination) (total : Int)
    (ht0 : 0 ≤ total) (ht : total ≤ 2 ^ 53)
    (hd1 : 1 ≤ p.defaultPageSize) (hd : p.defaultPageSize ≤ 2 ^ 53) :
    SetTotalRows cvt p total =
      { page := 1, pageSize := p.defaultPageSize,
        totalPages := ceilDiv total p.defaultPageSize, totalRows := total,
        OnChange := p.OnChange,
        calls := if p.OnChange then p.calls ++ [(1, p.defaultPageSize)] else p.calls,
        defaultPageSize := p.defaultPageSize } := by
  rw [SetTotalRows_eq, pagesOf_exact cvt total p.defaultPageSize ht0 ht hd1 hd]

/-- The spec's example: 95 rows at the default page size 10 give 10 pages and
page 1. -/
theorem SetTotalRows_95 (cvt : Float64 → Int) :
    SetTotalRows cvt NewPagination 95 =
      { page := 1, pageSize := 10, totalPages := 10, totalRows := 95, OnChange := false,
        calls := [], defaultPageSize := 10 } := rfl

/-- C2 (failing input).  After `SetDefaultPageSize(1)`, the call
`SetTotalRows(2^53 + 1)` stores `totalPages = 2^53`, one less than
`ceil(total / d) = 2^53 + 1`. -/
theorem SetTotalRows_loses_a_page (cvt : Float64 → Int) :
    run cvt [Op.setDefaultPageSize 1, Op.setTotalRows 9007199254740993] NewPagination =
      some { page := 1, pageSize := 1, totalPages := 9007199254740992,
             totalRows := 9007199254740993, OnChange := false, calls := [],
             defaultPageSize := 1 } ∧
    ceilDiv 9007199254740993 1 = 9007199254740993 :=
  ⟨rfl, by decide⟩

/-! ## C7: the page-size entry -/

theorem checkPageSize_eq_none_iff (n : Int) : checkPageSize n = none ↔ 1 ≤ n := by
  unfold checkPageSize
  by_cases h : n < 1
  · simp only [h, if_true]
    constructor
    · intro h2
      cases h2
    · intro h2
      omega
  · simp only [h, if_false, true_iff]
    omega

theorem pageSizeValidator_of_atoi (s : String) (n : Int) (h : Atoi s = Except.ok n) :
    pageSizeValidator s = checkPageSize n := by
  simp [pageSizeValidator, h]

theorem setPageSize_accepted (cvt : Float64 → Int) (p : Pagination) (s : String) (n : Int)
    (h : Atoi s = Except.ok n) (hn : 1 ≤ n) :
    setPageSize cvt p s =
      Except.ok
        { page := 1, pageSize := n, totalPages := pagesOf cvt p.totalRows n,
          totalRows := p.totalRows, OnChange := p.OnChange,
          calls := if p.OnChange then p.calls ++ [(1, n)] else p.calls,
          defaultPageSize := p.defaultPageSize } := by
  have hc : checkPageSize n = none := (checkPageSize_eq_none_iff n).2 hn
  have hv : pageSizeValidator s = none := by
    rw [pageSizeValidator_of_atoi s n h]
    exact hc
  simp only [setPageSize, h, hc, pageSizeOnSubmitted, hv, onSubmit_eq, setTotalPages_eq,
    firstPage]

theorem setPageSize_rejected (cvt : Float64 → Int) (p : Pagination) (s : String) (n : Int)
    (h : Atoi s = Except.ok n) (hn : n < 1) :
    setPageSize cvt p s = Except.error EntryError.pageSizeTooSmall := by
  simp only [setPageSize, h, checkPageSize, hn, if_true]

/-- What the page-size entry does in every state: the validator returns an
error exactly for `newSize < 1` (so 1 is accepted); on acceptance the page
size is the new size, the page is 1, the page count is the one
`setTotalPages` stores for the new size, and `OnChange` (if set) is called
once with `(1, newSize)`. -/
theorem setPageSize_spec (cvt : Float64 → Int) (p : Pagination) :
    (∀ n : Int, checkPageSize n ≠ none ↔ n < 1) ∧
    checkPageSize 1 = none ∧
    (∀ (s : String) (n : Int), Atoi s = Except.ok n →
      (pageSizeValidator s ≠ none ↔ n < 1) ∧
      ((∃ err, setPageSize cvt p s = Except.error err) ↔ n < 1) ∧
      (1 ≤ n →
        setPageSize cvt p s =
          Except.ok
            { page := 1, pageSize := n, totalPages := pagesOf cvt p.totalRows n,
              totalRows := p.totalRows, OnChange := p.OnChange,
              calls := if p.OnChange then p.calls ++ [(1, n)] else p.calls,
              defaultPageSize := p.defaultPageSize })) := by
  have key : ∀ n : Int, checkPageSize n ≠ none ↔ n < 1 := by
    intro n
    rw [Ne, checkPageSize_eq_none_iff]
    omega
  refine ⟨key, rfl, ?_⟩
  intro s n ha
  refine ⟨?_, ?_, setPageSize_accepted cvt p s n ha⟩
  · rw [pageSizeValidator_of_atoi s n ha]
    exact key n
  · constructor
    · rintro ⟨err, herr⟩
      by_contra hge
      rw [setPageSize_accepted cvt p s n ha (by omega)] at herr
      cases herr
    · intro hn
      exact ⟨_, setPageSize_rejected cvt p s n ha hn⟩

/-- Up to `2^53` rows and for an accepted page size up to `2^53`, the
page-size entry does all that C7 says, the exact ceiling included. -/
theorem setPageSize_exact (cvt : Float64 → Int) (p : Pagination) (s : String) (n : Int)
    (h : Atoi s = Except.ok n) (hn1 : 1 ≤ n) (hn : n ≤ 2 ^ 53)
    (hr0 : 0 ≤ p.totalRows) (hr : p.totalRows ≤ 2 ^ 53) :
    setPageSize cvt p s =
      Except.ok
        { page := 1, pageSize := n, totalPages := ceilDiv p.totalRows n,
          totalRows := p.totalRows, OnChange := p.OnChange,
          calls := if p.OnChange then p.calls ++ [(1, n)] else p.calls,
          defaultPageSize := p.defaultPageSize } := by
  rw [setPageSize_accepted cvt p s n h hn1, pagesOf_exact cvt p.totalRows n hr0 hr hn1 hn]

/-- The spec's example: on page 3 with 95 rows, entering the page size 5
gives page 1 and 19 pages. -/
theorem setPageSize_5_on_page_3 (cvt : Float64 → Int) :
    run cvt [Op.setTotalRows 95, Op.jumpToPage "3"] NewPagination =
      some { page := 3, pageSize := 10, totalPages := 10, totalRows := 95, OnChange := false,
             calls := [], defaultPageSize := 10 } ∧
    run cvt [Op.setTotalRows 95, Op.jumpToPage "3", Op.setPageSize "5"] NewPagination =
      some { page := 1, pageSize := 5, totalPages := 19, totalRows := 95, OnChange := false,
             calls := [], defaultPageSize := 10 } := by
  have e1 : step cvt NewPagination (Op.setTotalRows 95) =
      some { page := 1, pageSize := 10, totalPages := 10, totalRows := 95, OnChange := false,
             calls := [], defaultPageSize := 10 } := rfl
  have e2 :
      step cvt
        { page := 1, pageSize := 10, totalPages := 10, totalRows := 95, OnChange := false,
          calls := [], defaultPageSize := 10 }
        (Op.jumpToPage "3") =
      some { page := 3, pageSize := 10, totalPages := 10, totalRows := 95, OnChange := false,
             calls := [], defaultPageSize := 10 } := rfl
  have e3 :
      step cvt
        { page := 3, pageSize := 10, totalPages := 10, totalRows := 95, OnChange := false,
          calls := [], defaultPageSize := 10 }
        (Op.setPageSize "5") =
      some { page := 1, pageSize := 5, totalPages := 19, totalRows := 95, OnChange := false,
             calls := [], defaultPageSize := 10 } := rfl
  simp only [run, e1, e2, e3, and_self]

/-- C7 (failing input).  After `SetTotalRows(2^53 + 1)`, entering the page
size 1 is accepted and stores `totalPages = 2^53`, one less than
`ceil(totalRows / newSize) = 2^53 + 1`. -/
theorem setPageSize_loses_a_page (cvt : Float64 → Int) :
    run cvt [Op.setTotalRows 9007199254740993, Op.setPageSize "1"] NewPagination =
      some { page := 1, pageSize := 1, totalPages := 9007199254740992,
             totalRows := 9007199254740993, OnChange := false, calls := [],
             defaultPageSize := 10 } ∧
    ceilDiv 9007199254740993 1 = 9007199254740993 := by
  have e1 : step cvt NewPagination (Op.setTotalRows 9007199254740993) =
      some { page := 1, pageSize := 10, totalPages := 900719925474100,
             totalRows := 9007199254740993, OnChange := false, calls := [],
             defaultPageSize := 10 } := rfl
  have e2 :
      step cvt
        { page := 1, pageSize := 10, totalPages := 900719925474100,
          totalRows := 9007199254740993, OnChange := false, calls := [],
          defaultPageSize := 10 }
        (Op.setPageSize "1") =
      some { page := 1, pageSize := 1, totalPages := 9007199254740992,
             totalRows := 9007199254740993, OnChange := false, calls := [],
             defaultPageSize := 10 } := rfl
  refine ⟨?_, by decide⟩
  simp only [run, e1, e2]

/-! ## C8, C9, C10: reachable states -/

/-- A property that holds at the start and is kept by every transition holds
after every sequence of transitions. -/
theorem run_preserves (cvt : Float64 → Int) (Inv : Pagination → Prop)
    (hstep : ∀ (p q : Pagination) (op : Op), Inv p → step cvt p op = some q → Inv q) :
    ∀ (ops : List Op) (p q : Pagination), Inv p → run cvt ops p = some q → Inv q := by
  intro ops
  induction ops with
  | nil =>
    intro p q hp h
    simp only [run, Option.some.injEq] at h
    rw [← h]
    exact hp
  | cons op ops ih =>
    intro p q hp h
    unfold run at h
    cases hs : step cvt p op with
    | none =>
      rw [hs] at h
      cases h
    | some r =>
      rw [hs] at h
      exact ih r q (hstep p r op hp hs) h

theorem reachable_of_preserved (cvt : Float64 → Int) (Inv : Pagination → Prop)
    (h0 : Inv NewPagination)
    (hstep : ∀ (p q : Pagination) (op : Op), Inv p → step cvt p op = some q → Inv q)
    (p : Pagination) (h : Reachable cvt p) : Inv p := by
  obtain ⟨ops, hops⟩ := h
  exact run_preserves cvt Inv hstep ops NewPagination p h0 hops

theorem toInt_isInt (cvt : Float64 → Int) (hcvt : ∀ f, IsInt (cvt f)) (f : Float64) :
    IsInt (Float64.toInt cvt f) := by
  cases f with
  | finite m e =>
    simp only [Float64.toInt]
    generalize (if 0 ≤ e then m * 2 ^ e.toNat else Int.tdiv m (2 ^ (-e).toNat)) = v
    by_cases h : minInt ≤ v ∧ v ≤ maxInt
    · rw [if_pos h]
      exact h
    · rw [if_neg h]
      exact hcvt _
  | inf b => exact hcvt _
  | nan => exact hcvt _

theorem jumpToPage_ok_inv (p q : Pagination) (s : String) (h : jumpToPage p s = Except.ok q) :
    ∃ target : Int, IsInt target ∧ checkPage p target = none ∧
      q = { p with page := target,
                   calls := if p.OnChange then p.calls ++ [(target, p.pageSize)]
                            else p.calls } := by
  cases ha : Atoi s with
  | error err =>
    rw [jumpToPage_of_atoi_error p s err ha] at h
    cases h
  | ok target =>
    cases hc : checkPage p target with
    | some err =>
      rw [jumpToPage_rejected p s target err ha hc] at h
      cases h
    | none =>
      rw [jumpToPage_accepted p s target ha hc] at h
      cases h
      exact ⟨target, Atoi_isInt s target ha, hc, rfl⟩

theorem setPageSize_ok_inv (cvt : Float64 → Int) (p q : Pagination) (s : String)
    (h : setPageSize cvt p s = Except.ok q) :
    ∃ n : Int, IsInt n ∧ 1 ≤ n ∧
      q = { page := 1, pageSize := n, totalPages := pagesOf cvt p.totalRows n,
            totalRows := p.totalRows, OnChange := p.OnChange,
            calls := if p.OnChange then p.calls ++ [(1, n)] else p.calls,
            defaultPageSize := p.defaultPageSize } := by
  cases ha : Atoi s with
  | error err =>
    simp only [setPageSize, ha] at h
    cases h
  | ok n =>
    by_cases hn : 1 ≤ n
    · rw [setPageSize_accepted cvt p s n ha hn] at h
      cases h
      exact ⟨n, Atoi_isInt s n ha, hn, rfl⟩
    · rw [setPageSize_rejected cvt p s n ha (by omega)] at h
      cases h

/-- The transitions one by one: what `step` returns when it returns a
state. -/
theorem step_cases (cvt : Float64 → Int) (p q : Pagination) (op : Op)
    (h : step cvt p op = some q) :
    q = Reset p ∨
    (∃ n : Int, 1 ≤ n ∧ IsInt n ∧ q = SetDefaultPageSize p n) ∨
    (∃ total : Int, 0 ≤ total ∧ IsInt total ∧ q = SetTotalRows cvt p total) ∨
    q = handlePreClick p ∨
    q = handleNextClick p ∨
    (∃ s : String, jumpToPage p s = Except.ok q) ∨
    (∃ s : String, setPageSize cvt p s = Except.ok q) ∨
    (∃ b : Bool, q = { p with OnChange := b }) := by
  cases op with
  | reset =>
    simp only [step, Option.some.injEq] at h
    exact Or.inl h.symm
  | setDefaultPageSize n =>
    simp only [step] at h
    split at h
    · rename_i hn
      simp only [Option.some.injEq] at h
      exact Or.inr (Or.inl ⟨n, hn.1, hn.2, h.symm⟩)
    · cases h
  | setTotalRows total =>
    simp only [step] at h
    split at h
    · rename_i hn
      simp only [Option.some.injEq] at h
      exact Or.inr (Or.inr (Or.inl ⟨total, hn.1, hn.2, h.symm⟩))
    · cases h
  | previous =>
    simp only [step, Option.some.injEq] at h
    exact Or.inr (Or.inr (Or.inr (Or.inl h.symm)))
  | next =>
    simp only [step, Option.some.injEq] at h
    exact Or.inr (Or.inr (Or.inr (Or.inr (Or.inl h.symm))))
  | jumpToPage s =>
    simp only [step] at h
    cases hj : jumpToPage p s with
    | error e =>
      rw [hj] at h
      cases h
    | ok r =>
      rw [hj] at h
      simp only [Option.some.injEq] at h
      rw [h] at hj
      exact Or.inr (Or.inr (Or.inr (Or.inr (Or.inr (Or.inl ⟨s, hj⟩)))))
  | setPageSize s =>
    simp only [step] at h
    cases hj : setPageSize cvt p s with
    | error e =>
      rw [hj] at h
      cases h
    | ok r =>
      rw [hj] at h
      simp only [Option.some.injEq] at h
      rw [h] at hj
      exact Or.inr (Or.inr (Or.inr (Or.inr (Or.inr (Or.inr (Or.inl ⟨s, hj⟩))))))
  | setOnChange b =>
    simp only [step, Option.some.injEq] at h
    exact Or.inr (Or.inr (Or.inr (Or.inr (Or.inr (Or.inr (Or.inr ⟨b, h.symm⟩))))))

/-- C8 (counterexample).  Entering the page 5 in the state made by
`NewPagination()` is accepted, because the total-page count is 0; the page is
then 5, above `max(totalPages, 1) = 1`. -/
theorem page_above_bound_reachable :
    Reachable cvtAmd64
      { page := 5, pageSize := 10, totalPages := 0, totalRows := 0, OnChange := false,
        calls := [], defaultPageSize := 10 } ∧
    ¬ ((5 : Int) ≤ max 0 1) :=
  ⟨⟨[Op.jumpToPage "5"], rfl⟩, by decide⟩

theorem pageInv_step (cvt : Float64 → Int) (hcvt : ∀ f, IsInt (cvt f)) (p q : Pagination)
    (op : Op) (hp : PageInv p) (h : step cvt p op = some q) : PageInv q := by
  obtain ⟨h1, h2, h3, h4⟩ := hp
  have hone : IsInt 1 := by decide
  rcases step_cases cvt p q op h with
    rfl | ⟨n, _, _, rfl⟩ | ⟨total, _, _, rfl⟩ | rfl | rfl | ⟨s, hs⟩ | ⟨s, hs⟩ | ⟨b, rfl⟩
  · exact ⟨le_refl _, hone, h3, fun h => h⟩
  · exact ⟨h1, h2, h3, h4⟩
  · rw [SetTotalRows_eq]
    exact ⟨le_refl _, hone, toInt_isInt cvt hcvt _, fun h => h⟩
  · by_cases hp1 : p.page = 1
    · rw [handlePreClick_of_eq p hp1]
      exact ⟨h1, h2, h3, h4⟩
    · have hmin : minInt < p.page := lt_of_lt_of_le (by decide) h1
      have hw2 : wrapInt (p.page - 1) = p.page - 1 := by
        apply wrapInt_of_isInt
        have a := h2.2
        unfold IsInt
        unfold minInt at *
        unfold maxInt at *
        omega
      rw [handlePreClick_of_ne p hp1, hw2]
      refine ⟨?_, ⟨?_, ?_⟩, h3, ?_⟩
      · show 1 ≤ p.page - 1
        omega
      · show minInt ≤ p.page - 1
        have := h2.1
        omega
      · show p.page - 1 ≤ maxInt
        have := h2.2
        omega
      · intro ht
        show p.page - 1 ≤ p.totalPages
        have := h4 ht
        omega
  · by_cases hge : p.totalPages ≤ p.page
    · rw [handleNextClick_of_ge p hge]
      exact ⟨h1, h2, h3, h4⟩
    · have hlt : p.page < p.totalPages := by omega
      have hw2 : wrapInt (p.page + 1) = p.page + 1 := by
        apply wrapInt_of_isInt
        have a := h2.1
        have b := h3.2
        unfold IsInt
        unfold minInt at *
        unfold maxInt at *
        omega
      rw [handleNextClick_of_lt p hlt, hw2]
      refine ⟨?_, ⟨?_, ?_⟩, h3, ?_⟩
      · show 1 ≤ p.page + 1
        omega
      · show minInt ≤ p.page + 1
        have := h2.1
        omega
      · show p.page + 1 ≤ maxInt
        have := h3.2
        omega
      · intro _
        show p.page + 1 ≤ p.totalPages
        omega
  · obtain ⟨target, ht, hc, rfl⟩ := jumpToPage_ok_inv p q s hs
    obtain ⟨hc1, hc2⟩ := (checkPage_eq_none_iff p target).1 hc
    refine ⟨hc1, ht, h3, ?_⟩
    intro hpos
    show target ≤ p.totalPages
    rcases hc2 with hz | hle
    · have : 1 ≤ p.totalPages := hpos
      omega
    · exact hle
  · obtain ⟨n, _, _, rfl⟩ := setPageSize_ok_inv cvt p q s hs
    exact ⟨le_refl _, hone, toInt_isInt cvt hcvt _, fun h => h⟩
  · exact ⟨h1, h2, h3, h4⟩

/-- C8 (amended).  In every state reachable from `NewPagination()` by
`Reset`, `SetDefaultPageSize(n ≥ 1)`, `SetTotalRows(total ≥ 0)`, the two
buttons, and the two entries on input their validators accept: `page ≥ 1`,
and `page ≤ totalPages` whenever `totalPages ≥ 1`.  (`cvt`, the
implementation's result for an out-of-range `int(f)`, is any value of
`int`.) -/
theorem page_bounds_of_reachable (cvt : Float64 → Int) (hcvt : ∀ f, IsInt (cvt f))
    (p : Pagination) (h : Reachable cvt p) :
    1 ≤ p.page ∧ (1 ≤ p.totalPages → p.page ≤ p.totalPages) := by
  have hinv : PageInv p :=
    reachable_of_preserved cvt PageInv (by unfold PageInv; decide) (pageInv_step cvt hcvt) p h
  exact ⟨hinv.1, hinv.2.2.2⟩

theorem page_bounds_of_reachable_witness :
    (∀ f, IsInt (cvtAmd64 f)) ∧
    run cvtAmd64 [Op.setTotalRows 95, Op.jumpToPage "3", Op.next] NewPagination =
      some { page := 4, pageSize := 10, totalPages := 10, totalRows := 95, OnChange := false,
             calls := [], defaultPageSize := 10 } ∧
    ((1 : Int) ≤ 4 ∧ ((1 : Int) ≤ 10 → (4 : Int) ≤ 10)) :=
  ⟨fun _ => (by decide : IsInt minInt), rfl,
    page_bounds_of_reachable cvtAmd64 (fun _ => (by decide : IsInt minInt))
      { page := 4, pageSize := 10, totalPages := 10, totalRows := 95, OnChange := false,
        calls := [], defaultPageSize := 10 }
      ⟨[Op.setTotalRows 95, Op.jumpToPage "3", Op.next], rfl⟩⟩

/-- C9 (failing input).  `SetTotalRows(95)` then `SetDefaultPageSize(5)`: the
page size is 5 and the rows are 95, but the total-page count is still 10, not
`ceil(95 / 5) = 19`.  `SetDefaultPageSize` changes the page size without
calling `setTotalPages`. -/
theorem totalPages_stale_after_SetDefaultPageSize (cvt : Float64 → Int) :
    run cvt [Op.setTotalRows 95, Op.setDefaultPageSize 5] NewPagination =
      some { page := 1, pageSize := 5, totalPages := 10, totalRows := 95, OnChange := false,
             calls := [], defaultPageSize := 5 } ∧
    ceilDiv 95 5 = 19 ∧
    ∃ p : Pagination, Reachable cvt p ∧ p.GetTotalPages ≠ ceilDiv p.totalRows p.GetPageSize :=
  ⟨rfl, by decide,
    ⟨{ page := 1, pageSize := 5, totalPages := 10, totalRows := 95, OnChange := false,
       calls := [], defaultPageSize := 5 },
     ⟨[Op.setTotalRows 95, Op.setDefaultPageSize 5], rfl⟩, by decide⟩⟩

/-- `Reset` has the same defect: after the page size 5 has been entered for 95
rows (19 pages), `Reset` puts the page size back to 10 and leaves 19 pages. -/
theorem totalPages_stale_after_Reset (cvt : Float64 → Int) :
    (Reset { page := 1, pageSize := 5, totalPages := 19, totalRows := 95, OnChange := false,
             calls := [], defaultPageSize := 10 }) =
      { page := 1, pageSize := 10, totalPages := 19, totalRows := 95, OnChange := false,
        calls := [], defaultPageSize := 10 } ∧
    pagesOf cvt 95 10 = 10 ∧ ceilDiv 95 10 = 10 :=
  ⟨rfl, rfl, by decide⟩

theorem sizeInv_step (cvt : Float64 → Int) (p q : Pagination) (op : Op) (hp : SizeInv p)
    (h : step cvt p op = some q) : SizeInv q := by
  obtain ⟨h1, h2⟩ := hp
  rcases step_cases cvt p q op h with
    rfl | ⟨n, hn, _, rfl⟩ | ⟨total, _, _, rfl⟩ | rfl | rfl | ⟨s, hs⟩ | ⟨s, hs⟩ | ⟨b, rfl⟩
  · exact ⟨h2, h2⟩
  · exact ⟨hn, hn⟩
  · rw [SetTotalRows_eq]
    exact ⟨h2, h2⟩
  · by_cases hp1 : p.page = 1
    · rw [handlePreClick_of_eq p hp1]
      exact ⟨h1, h2⟩
    · rw [handlePreClick_of_ne p hp1]
      exact ⟨h1, h2⟩
  · unfold handleNextClick
    simp only []
    split
    · exact ⟨h1, h2⟩
    · rw [onSubmit_eq]
      exact ⟨h1, h2⟩
  · obtain ⟨target, _, _, rfl⟩ := jumpToPage_ok_inv p q s hs
    exact ⟨h1, h2⟩
  · obtain ⟨n, _, hn, rfl⟩ := setPageSize_ok_inv cvt p q s hs
    exact ⟨hn, h2⟩
  · exact ⟨h1, h2⟩

/-- C10.  In every state reachable from `NewPagination()` by transitions that
respect their preconditions (`SetDefaultPageSize` with `n ≥ 1`, the page-size
entry only on validated input), `pageSize ≥ 1` and the default page size is
`≥ 1`; the divisor `float64(size)` of `setTotalPages` is therefore not a
zero. -/
theorem pageSize_pos_of_reachable (cvt : Float64 → Int) (p : Pagination)
    (h : Reachable cvt p) :
    1 ≤ p.pageSize ∧ 1 ≤ p.defaultPageSize ∧ (Float64.ofInt p.pageSize).isZero = false := by
  have hinv : SizeInv p :=
    reachable_of_preserved cvt SizeInv (by unfold SizeInv; decide) (sizeInv_step cvt) p h
  refine ⟨hinv.1, hinv.2, Float64.ofInt_not_zero _ ?_⟩
  have := hinv.1
  omega

theorem pageSize_pos_of_reachable_witness :
    run cvtAmd64 [Op.setTotalRows 95, Op.setPageSize "5"] NewPagination =
      some { page := 1, pageSize := 5, totalPages := 19, totalRows := 95, OnChange := false,
             calls := [], defaultPageSize := 10 } ∧
    ((1 : Int) ≤ 5 ∧ (1 : Int) ≤ 10 ∧ (Float64.ofInt 5).isZero = false) :=
  ⟨by decide,
    pageSize_pos_of_reachable cvtAmd64
      { page := 1, pageSize := 5, totalPages := 19, totalRows := 95, OnChange := false,
        calls := [], defaultPageSize := 10 }
      ⟨[Op.setTotalRows 95, Op.setPageSize "5"], by decide⟩⟩

/-! ## C13: the state made by `NewPagination` -/

/-- C13.  `NewPagination()` returns a state with `GetPage() = 1`,
`GetPageSize() = 10`, `totalRows = 0`, `GetTotalPages() = 0`, the default page
size 10 and no callback set (and so no call made). -/
theorem NewPagination_state :
    NewPagination.GetPage = 1 ∧ NewPagination.GetPageSize = 10 ∧
    NewPagination.totalRows = 0 ∧ NewPagination.GetTotalPages = 0 ∧
    NewPagination.defaultPageSize = 10 ∧ NewPagination.OnChange = false ∧
    NewPagination.calls = [] ∧
    NewPagination =
      { page := 1, pageSize := 10, totalPages := 0, totalRows := 0, OnChange := false,
        calls := [], defaultPageSize := 10 } := by
  decide

/-! ## C12: rejected input -/

theorem pageSizeOnSubmitted_rejected (cvt : Float64 → Int) (p : Pagination) (s : String)
    (h : pageSizeValidator s ≠ none) : pageSizeOnSubmitted cvt p s = p := by
  unfold pageSizeOnSubmitted
  cases hv : pageSizeValidator s with
  | none => exact absurd hv h
  | some e => rfl

theorem pageSizeValidator_of_atoi_error (s : String) (err : NumError)
    (h : Atoi s = Except.error err) : pageSizeValidator s = some (EntryError.atoi err) := by
  simp [pageSizeValidator, h]

/-- C12.  For every state and every text that the page validator rejects, the
page submit handler returns the state as it was: page, page size, total rows
and total pages are unchanged and `OnChange` is not called; the same holds
for the page-size validator and its submit handler.  The rejected inputs are
text `Atoi` fails on (text that is not a decimal integer included), a page
below 1 or, with `totalPages ≠ 0`, above `totalPages`, and a page size
below 1. -/
theorem submit_rejected_changes_nothing (cvt : Float64 → Int) (p : Pagination) (s : String) :
    (curPageValidator p s ≠ none → curPageOnSubmitted p s = p) ∧
    (pageSizeValidator s ≠ none → pageSizeOnSubmitted cvt p s = p) ∧
    (isDecimalText s = false → curPageValidator p s ≠ none ∧ pageSizeValidator s ≠ none) ∧
    (∀ err, Atoi s = Except.error err →
      curPageValidator p s ≠ none ∧ pageSizeValidator s ≠ none) ∧
    (∀ target : Int, Atoi s = Except.ok target →
      (target < 1 ∨ (p.totalPages ≠ 0 ∧ p.totalPages < target) → curPageValidator p s ≠ none) ∧
      (target < 1 → pageSizeValidator s ≠ none)) := by
  have herr : ∀ err, Atoi s = Except.error err →
      curPageValidator p s ≠ none ∧ pageSizeValidator s ≠ none := by
    intro err ha
    rw [curPageValidator_of_atoi_error p s err ha, pageSizeValidator_of_atoi_error s err ha]
    exact ⟨Option.some_ne_none _, Option.some_ne_none _⟩
  refine ⟨curPageOnSubmitted_rejected p s, pageSizeOnSubmitted_rejected cvt p s, ?_, herr, ?_⟩
  · intro hs
    obtain ⟨err, ha⟩ := atoi_error_of_not_decimal s hs
    exact herr err ha
  · intro target ha
    constructor
    · intro hbad
      rw [curPageValidator_of_atoi p s target ha, Ne, checkPage_eq_none_iff]
      rintro ⟨h1, h2⟩
      rcases hbad with hlt | ⟨hne, hgt⟩
      · omega
      · rcases h2 with hz | hle
        · exact hne hz
        · omega
    · intro hlt
      rw [pageSizeValidator_of_atoi s target ha, Ne, checkPageSize_eq_none_iff]
      omega

theorem submit_rejected_changes_nothing_witness :
    curPageValidator
        { page := 3, pageSize := 10, totalPages := 10, totalRows := 95, OnChange := true,
          calls := [], defaultPageSize := 10 } "11" ≠ none ∧
    pageSizeValidator "0" ≠ none ∧
    curPageOnSubmitted
        { page := 3, pageSize := 10, totalPages := 10, totalRows := 95, OnChange := true,
          calls := [], defaultPageSize := 10 } "11"
      = { page := 3, pageSize := 10, totalPages := 10, totalRows := 95, OnChange := true,
          calls := [], defaultPageSize := 10 } ∧
    pageSizeOnSubmitted cvtAmd64
        { page := 3, pageSize := 10, totalPages := 10, totalRows := 95, OnChange := true,
          calls := [], defaultPageSize := 10 } "0"
      = { page := 3, pageSize := 10, totalPages := 10, totalRows := 95, OnChange := true,
          calls := [], defaultPageSize := 10 } :=
  ⟨by decide, by decide,
    (submit_rejected_changes_nothing cvtAmd64
      { page := 3, pageSize := 10, totalPages := 10, totalRows := 95, OnChange := true,
        calls := [], defaultPageSize := 10 } "11").1 (by decide),
    (submit_rejected_changes_nothing cvtAmd64
      { page := 3, pageSize := 10, totalPages := 10, totalRows := 95, OnChange := true,
        calls := [], defaultPageSize := 10 } "0").2.1 (by decide)⟩

/-! ## C11: the calls of `OnChange` -/

/-- C11 (counterexample).  With the callback set, `Reset` and
`SetDefaultPageSize` make no call: the log of calls stays empty, while one
call with the resulting page and page size is what the claim asks for. -/
theorem Reset_makes_no_call :
    (Reset { page := 3, pageSize := 5, totalPages := 19, totalRows := 95, OnChange := true,
             calls := [], defaultPageSize := 10 }) =
      { page := 1, pageSize := 10, totalPages := 19, totalRows := 95, OnChange := true,
        calls := [], defaultPageSize := 10 } ∧
    (SetDefaultPageSize
        { page := 3, pageSize := 5, totalPages := 19, totalRows := 95, OnChange := true,
          calls := [], defaultPageSize := 10 } 20) =
      { page := 3, pageSize := 20, totalPages := 19, totalRows := 95, OnChange := true,
        calls := [], defaultPageSize := 20 } ∧
    ([] : List (Int × Int)) ≠ [] ++ [(1, 10)] ∧
    ([] : List (Int × Int)) ≠ [] ++ [(3, 20)] := by
  decide

theorem step_calls_of_nil (cvt : Float64 → Int) (p q : Pagination) (op : Op)
    (hnil : p.OnChange = false) (h : step cvt p op = some q) : q.calls = p.calls := by
  rcases step_cases cvt p q op h with
    rfl | ⟨n, _, _, rfl⟩ | ⟨total, _, _, rfl⟩ | rfl | rfl | ⟨s, hs⟩ | ⟨s, hs⟩ | ⟨b, rfl⟩
  · rfl
  · rfl
  · rw [SetTotalRows_eq, hnil]
    rfl
  · by_cases hp1 : p.page = 1
    · rw [handlePreClick_of_eq p hp1]
    · rw [handlePreClick_of_ne p hp1, hnil]
      rfl
  · by_cases hge : p.totalPages ≤ p.page
    · rw [handleNextClick_of_ge p hge]
    · rw [handleNextClick_of_lt p (by omega), hnil]
      rfl
  · obtain ⟨target, _, _, rfl⟩ := jumpToPage_ok_inv p q s hs
    rw [hnil]
    rfl
  · obtain ⟨n, _, _, rfl⟩ := setPageSize_ok_inv cvt p q s hs
    rw [hnil]
    rfl
  · rfl

/-- Whether a transition is taken does not depend on the callback. -/
theorem step_isSome_of_onChange (cvt : Float64 → Int) (p : Pagination) (op : Op) (b : Bool) :
    (step cvt { p with OnChange := b } op).isSome = (step cvt p op).isSome := by
  cases op with
  | reset => rfl
  | setDefaultPageSize n =>
    simp only [step]
    split <;> rfl
  | setTotalRows total =>
    simp only [step]
    split <;> rfl
  | previous => rfl
  | next => rfl
  | jumpToPage s =>
    simp only [step, jumpToPage]
    cases Atoi s with
    | error e => rfl
    | ok target =>
      have hc : checkPage { p with OnChange := b } target = checkPage p target := rfl
      simp only [hc]
      cases checkPage p target <;> rfl
  | setPageSize s =>
    simp only [step, setPageSize]
    cases Atoi s with
    | error e => rfl
    | ok n =>
      simp only []
      cases checkPageSize n <;> rfl
  | setOnChange c => rfl

/-- C11 (amended).  With the callback set, `SetTotalRows`, a previous click
away from page 1, a next click below the last page, and an accepted page or
page-size entry each call `OnChange` exactly once, within the transition,
with the `(GetPage(), GetPageSize())` of the resulting state; `Reset`,
`SetDefaultPageSize`, a previous click at page 1 and a next click at (or
beyond) the last page call it zero times.  With `OnChange` nil no transition
calls anything, and the same transitions are taken as with a callback. -/
theorem onChange_calls (cvt : Float64 → Int) (p : Pagination) :
    (Reset p).calls = p.calls ∧
    (∀ n : Int, (SetDefaultPageSize p n).calls = p.calls) ∧
    (p.page = 1 → (handlePreClick p).calls = p.calls) ∧
    (p.totalPages ≤ p.page → (handleNextClick p).calls = p.calls) ∧
    (p.OnChange = true →
      (∀ total : Int,
        (SetTotalRows cvt p total).calls =
          p.calls ++ [((SetTotalRows cvt p total).GetPage,
                       (SetTotalRows cvt p total).GetPageSize)]) ∧
      (p.page ≠ 1 →
        (handlePreClick p).calls =
          p.calls ++ [((handlePreClick p).GetPage, (handlePreClick p).GetPageSize)]) ∧
      (p.page < p.totalPages →
        (handleNextClick p).calls =
          p.calls ++ [((handleNextClick p).GetPage, (handleNextClick p).GetPageSize)]) ∧
      (∀ (s : String) (q : Pagination), jumpToPage p s = Except.ok q →
        q.calls = p.calls ++ [(q.GetPage, q.GetPageSize)]) ∧
      (∀ (s : String) (q : Pagination), setPageSize cvt p s = Except.ok q →
        q.calls = p.calls ++ [(q.GetPage, q.GetPageSize)])) ∧
    (p.OnChange = false →
      (∀ (op : Op) (q : Pagination), step cvt p op = some q → q.calls = p.calls) ∧
      (∀ op : Op, (step cvt p op).isSome = (step cvt { p with OnChange := true } op).isSome)) := by
  refine ⟨rfl, fun _ => rfl, ?_, ?_, ?_, ?_⟩
  · intro h
    rw [handlePreClick_of_eq p h]
  · intro h
    rw [handleNextClick_of_ge p h]
  · intro hset
    refine ⟨?_, ?_, ?_, ?_, ?_⟩
    · intro total
      rw [SetTotalRows_eq, hset]
      rfl
    · intro h
      rw [handlePreClick_of_ne p h, hset]
      rfl
    · intro h
      rw [handleNextClick_of_lt p h, hset]
      rfl
    · intro s q hs
      obtain ⟨target, _, _, rfl⟩ := jumpToPage_ok_inv p q s hs
      rw [hset]
      rfl
    · intro s q hs
      obtain ⟨n, _, _, rfl⟩ := setPageSize_ok_inv cvt p q s hs
      rw [hset]
      rfl
  · intro hnil
    refine ⟨fun op q h => step_calls_of_nil cvt p q op hnil h, ?_⟩
    intro op
    exact (step_isSome_of_onChange cvt p op true).symm

theorem onChange_calls_witness :
    (3 : Int) < 10 ∧
    (handleNextClick
        { page := 3, pageSize := 10, totalPages := 10, totalRows := 95, OnChange := true,
          calls := [], defaultPageSize := 10 }).calls = [(4, 10)] ∧
    (SetTotalRows cvtAmd64
        { page := 3, pageSize := 5, totalPages := 10, totalRows := 95, OnChange := true,
          calls := [], defaultPageSize := 10 } 95).calls = [(1, 10)] :=
  ⟨by decide,
    ((onChange_calls cvtAmd64
      { page := 3, pageSize := 10, totalPages := 10, totalRows := 95, OnChange := true,
        calls := [], defaultPageSize := 10 }).2.2.2.2.1 rfl).2.2.1 (by decide),
    ((onChange_calls cvtAmd64
      { page := 3, pageSize := 5, totalPages := 10, totalRows := 95, OnChange := true,
        calls := [], defaultPageSize := 10 }).2.2.2.2.1 rfl).1 95⟩

/-! ## C14: the default page size and `Reset` -/

theorem step_defaultPageSize (cvt : Float64 → Int) (p q : Pagination) (op : Op)
    (hop : op.isSetDefaultPageSize = false) (h : step cvt p op = some q) :
    q.defaultPageSize = p.defaultPageSize := by
  cases op with
  | reset =>
    simp only [step, Option.some.injEq] at h
    rw [← h]
    rfl
  | setDefaultPageSize n => cases hop
  | setTotalRows total =>
    simp only [step] at h
    split at h
    · simp only [Option.some.injEq] at h
      rw [← h, SetTotalRows_eq]
    · cases h
  | previous =>
    simp only [step, Option.some.injEq] at h
    rw [← h]
    by_cases hp1 : p.page = 1
    · rw [handlePreClick_of_eq p hp1]
    · rw [handlePreClick_of_ne p hp1]
  | next =>
    simp only [step, Option.some.injEq] at h
    rw [← h]
    by_cases hge : p.totalPages ≤ p.page
    · rw [handleNextClick_of_ge p hge]
    · rw [handleNextClick_of_lt p (by omega)]
  | jumpToPage s =>
    simp only [step] at h
    cases hj : jumpToPage p s with
    | error e =>
      rw [hj] at h
      cases h
    | ok r =>
      rw [hj] at h
      simp only [Option.some.injEq] at h
      rw [h] at hj
      obtain ⟨target, _, _, rfl⟩ := jumpToPage_ok_inv p q s hj
      rfl
  | setPageSize s =>
    simp only [step] at h
    cases hj : setPageSize cvt p s with
    | error e =>
      rw [hj] at h
      cases h
    | ok r =>
      rw [hj] at h
      simp only [Option.some.injEq] at h
      rw [h] at hj
      obtain ⟨n, _, _, rfl⟩ := setPageSize_ok_inv cvt p q s hj
      rfl
  | setOnChange b =>
    simp only [step, Option.some.injEq] at h
    rw [← h]

theorem run_defaultPageSize (cvt : Float64 → Int) :
    ∀ (ops : List Op) (p q : Pagination),
      (∀ op ∈ ops, op.isSetDefaultPageSize = false) →
      run cvt ops p = some q → q.defaultPageSize = p.defaultPageSize := by
  intro ops
  induction ops with
  | nil =>
    intro p q _ h
    simp only [run, Option.some.injEq] at h
    rw [h]
  | cons op ops ih =>
    intro p q hops h
    unfold run at h
    cases hs : step cvt p op with
    | none =>
      rw [hs] at h
      cases h
    | some r =>
      rw [hs] at h
      have h1 := step_defaultPageSize cvt p r op (hops op (List.mem_cons_self _ _)) hs
      have h2 := ih r q (fun o ho => hops o (List.mem_cons_of_mem _ ho)) h
      rw [h2, h1]

/-- C14.  In every state and for every `n`, `SetDefaultPageSize(n)` makes
`GetPageSize() = n` at once and leaves the page as it was; after any sequence
of transitions without another `SetDefaultPageSize`, whatever page and page
size it reached, `Reset()` sets the page to 1 and the page size to `n`; and
`Reset` is idempotent. -/
theorem SetDefaultPageSize_then_Reset (cvt : Float64 → Int) (p : Pagination) (n : Int) :
    (SetDefaultPageSize p n).GetPageSize = n ∧
    (SetDefaultPageSize p n).GetPage = p.GetPage ∧
    (∀ (ops : List Op) (q : Pagination),
      (∀ op ∈ ops, op.isSetDefaultPageSize = false) →
      run cvt ops (SetDefaultPageSize p n) = some q →
      (Reset q).GetPage = 1 ∧ (Reset q).GetPageSize = n) ∧
    (∀ q : Pagination, Reset (Reset q) = Reset q) := by
  refine ⟨rfl, rfl, ?_, fun _ => rfl⟩
  intro ops q hops hrun
  have hd := run_defaultPageSize cvt ops (SetDefaultPageSize p n) q hops hrun
  refine ⟨rfl, ?_⟩
  show q.defaultPageSize = n
  rw [hd]
  rfl

theorem SetDefaultPageSize_then_Reset_witness :
    run cvtAmd64 [Op.setTotalRows 95, Op.jumpToPage "3", Op.setPageSize "5", Op.next]
        (SetDefaultPageSize NewPagination 20) =
      some { page := 2, pageSize := 5, totalPages := 19, totalRows := 95, OnChange := false,
             calls := [], defaultPageSize := 20 } ∧
    (Reset { page := 2, pageSize := 5, totalPages := 19, totalRows := 95, OnChange := false,
             calls := [], defaultPageSize := 20 }).GetPage = 1 ∧
    (Reset { page := 2, pageSize := 5, totalPages := 19, totalRows := 95, OnChange := false,
             calls := [], defaultPageSize := 20 }).GetPageSize = 20 :=
  ⟨by decide,
    (SetDefaultPageSize_then_Reset cvtAmd64 NewPagination 20).2.2.1
      [Op.setTotalRows 95, Op.jumpToPage "3", Op.setPageSize "5", Op.next]
      { page := 2, pageSize := 5, totalPages := 19, totalRows := 95, OnChange := false,
        calls := [], defaultPageSize := 20 }
      (by decide) (by decide)⟩

/-! ## C15, C16, C17: sequences of clicks -/

theorem wrapInt_succ_of_lt (x t : Int) (hx : 1 ≤ x) (ht : IsInt t) (hlt : x < t) :
    wrapInt (x + 1) = x + 1 := by
  apply wrapInt_of_isInt
  unfold IsInt minInt maxInt at *
  omega

theorem wrapInt_pred_of_le (x t : Int) (hx : 1 < x) (ht : IsInt t) (hle : x ≤ t) :
    wrapInt (x - 1) = x - 1 := by
  apply wrapInt_of_isInt
  unfold IsInt minInt maxInt at *
  omega

/-- C15.  In every state with `1 ≤ page ≤ max(totalPages, 1)`, both
`handlePreClick` and `handleNextClick` yield a state with
`1 ≤ page ≤ max(totalPages, 1)`; and in the state made by `NewPagination()`
(page 1, no pages), with or without a callback, `handleNextClick` changes
nothing and calls nothing. -/
theorem clicks_keep_page_bounds (p : Pagination) (ht : IsInt p.totalPages)
    (h1 : 1 ≤ p.page) (h2 : p.page ≤ max p.totalPages 1) :
    (1 ≤ (handlePreClick p).page ∧
      (handlePreClick p).page ≤ max (handlePreClick p).totalPages 1) ∧
    (1 ≤ (handleNextClick p).page ∧
      (handleNextClick p).page ≤ max (handleNextClick p).totalPages 1) ∧
    (∀ b : Bool,
      handleNextClick { NewPagination with OnChange := b } =
        { NewPagination with OnChange := b }) := by
  have hmax : p.page ≤ p.totalPages ∨ p.page ≤ 1 := by
    rcases le_max_iff.1 h2 with h | h
    · exact Or.inl h
    · exact Or.inr h
  refine ⟨?_, ?_, ?_⟩
  · by_cases hp1 : p.page = 1
    · rw [handlePreClick_of_eq p hp1]
      exact ⟨h1, h2⟩
    · have hgt : 1 < p.page := by omega
      have hle : p.page ≤ p.totalPages := by omega
      rw [handlePreClick_of_ne p hp1, wrapInt_pred_of_le p.page p.totalPages hgt ht hle]
      constructor
      · show 1 ≤ p.page - 1
        omega
      · show p.page - 1 ≤ max p.totalPages 1
        exact le_trans (by omega) (le_max_left _ _)
  · by_cases hge : p.totalPages ≤ p.page
    · rw [handleNextClick_of_ge p hge]
      exact ⟨h1, h2⟩
    · have hlt : p.page < p.totalPages := by omega
      rw [handleNextClick_of_lt p hlt, wrapInt_succ_of_lt p.page p.totalPages h1 ht hlt]
      constructor
      · show 1 ≤ p.page + 1
        omega
      · show p.page + 1 ≤ max p.totalPages 1
        exact le_trans (by omega) (le_max_left _ _)
  · intro b
    cases b <;> decide

theorem clicks_keep_page_bounds_witness :
    IsInt 10 ∧ (1 : Int) ≤ 10 ∧ (10 : Int) ≤ max 10 1 ∧
    (handleNextClick
        { page := 10, pageSize := 10, totalPages := 10, totalRows := 95, OnChange := true,
          calls := [], defaultPageSize := 10 }).page ≤ max 10 1 ∧
    (handlePreClick
        { page := 10, pageSize := 10, totalPages := 10, totalRows := 95, OnChange := true,
          calls := [], defaultPageSize := 10 }).page ≤ max 10 1 :=
  ⟨by decide, by decide, by decide,
    (clicks_keep_page_bounds
      { page := 10, pageSize := 10, totalPages := 10, totalRows := 95, OnChange := true,
        calls := [], defaultPageSize := 10 }
      (by decide) (by decide) (by decide)).2.1.2,
    (clicks_keep_page_bounds
      { page := 10, pageSize := 10, totalPages := 10, totalRows := 95, OnChange := true,
        calls := [], defaultPageSize := 10 }
      (by decide) (by decide) (by decide)).1.2⟩

/-- C17.  Where they move, the two clicks undo each other: in every state
with `1 ≤ page < totalPages`, `handlePreClick` after `handleNextClick` gives
back the page, page size, total rows and total pages (and the default page
size and the callback); in every state with `1 < page ≤ totalPages`, so does
`handleNextClick` after `handlePreClick`.  Only the log of calls grows, by the
two calls made. -/
theorem clicks_undo_each_other (p : Pagination) (ht : IsInt p.totalPages) :
    (1 ≤ p.page → p.page < p.totalPages →
      handlePreClick (handleNextClick p) =
        { p with calls := if p.OnChange
                          then p.calls ++ [(p.page + 1, p.pageSize), (p.page, p.pageSize)]
                          else p.calls }) ∧
    (1 < p.page → p.page ≤ p.totalPages →
      handleNextClick (handlePreClick p) =
        { p with calls := if p.OnChange
                          then p.calls ++ [(p.page - 1, p.pageSize), (p.page, p.pageSize)]
                          else p.calls }) := by
  obtain ⟨pg, sz, tp, tr, oc, cs, d⟩ := p
  simp only at ht
  constructor
  · intro h1 hlt
    simp only at h1 hlt
    have hw := wrapInt_succ_of_lt pg tp h1 ht hlt
    rw [handleNextClick_of_lt _ hlt]
    simp only [hw]
    have hne : pg + 1 ≠ 1 := by omega
    rw [handlePreClick_of_ne _ hne]
    have hw2 : wrapInt (pg + 1 - 1) = pg := by
      rw [show pg + 1 - 1 = pg by ring]
      apply wrapInt_of_isInt
      unfold IsInt minInt maxInt at *
      omega
    simp only [hw2]
    cases oc <;> simp
  · intro h1 hle
    simp only at h1 hle
    have hw := wrapInt_pred_of_le pg tp h1 ht hle
    have hne : pg ≠ 1 := by omega
    rw [handlePreClick_of_ne _ hne]
    simp only [hw]
    have hlt : pg - 1 < tp := by omega
    rw [handleNextClick_of_lt _ hlt]
    have hw2 : wrapInt (pg - 1 + 1) = pg := by
      rw [show pg - 1 + 1 = pg by ring]
      apply wrapInt_of_isInt
      unfold IsInt minInt maxInt at *
      omega
    simp only [hw2]
    cases oc <;> simp

theorem clicks_undo_each_other_witness :
    IsInt 10 ∧ (1 : Int) ≤ 3 ∧ (3 : Int) < 10 ∧
    handlePreClick (handleNextClick
        { page := 3, pageSize := 10, totalPages := 10, totalRows := 95, OnChange := true,
          calls := [], defaultPageSize := 10 })
      = { page := 3, pageSize := 10, totalPages := 10, totalRows := 95, OnChange := true,
          calls := [(4, 10), (3, 10)], defaultPageSize := 10 } :=
  ⟨by decide, by decide, by decide,
    (clicks_undo_each_other
      { page := 3, pageSize := 10, totalPages := 10, totalRows := 95, OnChange := true,
        calls := [], defaultPageSize := 10 }
      (by decide)).1 (by decide) (by decide)⟩

/-- The pages announced by `m` successive moves forward from `page`. -/
theorem range_succ_pages (page size : Int) (m : Nat) :
    (page + 1, size) ::
        (List.range m).map (fun i : Nat => (page + 1 + 1 + (i : Int), size)) =
      (List.range (m + 1)).map (fun i : Nat => (page + 1 + (i : Int), size)) := by
  rw [List.range_succ_eq_map, List.map_cons, List.map_map]
  congr 1
  · simp
  · apply List.map_congr_left
    intro i _
    simp only [Function.comp, Nat.succ_eq_add_one, Nat.cast_add, Nat.cast_one]
    congr 1
    ring

/-- What `k` clicks on the next button do: the page advances by
`min(k, totalPages - page)` (by nothing when `page ≥ totalPages`), one call of
`OnChange` (if set) is made per move, with the pages in increasing order, and
nothing else changes. -/
theorem iterate_handleNextClick (k : Nat) :
    ∀ p : Pagination, 1 ≤ p.page → IsInt p.totalPages →
      handleNextClick^[k] p =
        { p with
          page := p.page + ((min k (p.totalPages - p.page).toNat : Nat) : Int),
          calls := p.calls ++
            (if p.OnChange then
              (List.range (min k (p.totalPages - p.page).toNat)).map
                (fun i : Nat => (p.page + 1 + (i : Int), p.pageSize))
             else []) } := by
  induction k with
  | zero =>
    intro p _ _
    obtain ⟨pg, sz, tp, tr, oc, cs, d⟩ := p
    cases oc <;> simp
  | succ k ih =>
    intro p h1 ht
    rw [Function.iterate_succ_apply]
    by_cases hge : p.totalPages ≤ p.page
    · rw [handleNextClick_of_ge p hge, ih p h1 ht]
      have hz : (p.totalPages - p.page).toNat = 0 := by omega
      simp only [hz, Nat.min_zero]
    · have hlt : p.page < p.totalPages := by omega
      have hw := wrapInt_of_isInt (x := p.page + 1) (by
        unfold IsInt minInt maxInt at *
        omega)
      rw [handleNextClick_of_lt p hlt, hw]
      obtain ⟨pg, sz, tp, tr, oc, cs, d⟩ := p
      simp only at h1 ht hlt
      have hm : min (k + 1) (tp - pg).toNat = min k (tp - (pg + 1)).toNat + 1 := by
        omega
      rw [ih _ (by show 1 ≤ pg + 1; omega) ht]
      simp only [hm]
      cases oc
      · simp only [Bool.false_eq_true, if_false, List.append_nil, mk.injEq, and_true, true_and]
        push_cast
        ring
      · simp only [if_true, List.append_assoc, List.singleton_append, mk.injEq, and_true,
          true_and, range_succ_pages]
        push_cast
        ring


/-- C16.  After `SetTotalRows(total)`, for every `k`, `k` clicks on the next
button give `page = min(1 + k, max(totalPages, 1))`; with the callback set
they make exactly `min(k, max(totalPages, 1) - 1)` calls, for the pages
`2, 3, ...` in order, each once, and the walk stops at the last page; without
a callback they make none.  (`cvt`, the implementation's result for an
out-of-range `int(f)`, is any value of `int`.) -/
theorem next_clicks_after_SetTotalRows (cvt : Float64 → Int) (hcvt : ∀ f, IsInt (cvt f))
    (p : Pagination) (total : Int) (k : Nat) :
    (handleNextClick^[k] (SetTotalRows cvt p total)).page =
      min (1 + (k : Int)) (max (SetTotalRows cvt p total).totalPages 1) ∧
    (handleNextClick^[k] (SetTotalRows cvt p total)).calls =
      (SetTotalRows cvt p total).calls ++
        (if p.OnChange then
          (List.range (min k (max (SetTotalRows cvt p total).totalPages 1 - 1).toNat)).map
            (fun i : Nat => ((2 : Int) + (i : Int), p.defaultPageSize))
         else []) ∧
    (p.OnChange = true →
      (handleNextClick^[k] (SetTotalRows cvt p total)).calls.length =
        (SetTotalRows cvt p total).calls.length +
          min k (max (SetTotalRows cvt p total).totalPages 1 - 1).toNat) ∧
    (p.OnChange = false →
      (handleNextClick^[k] (SetTotalRows cvt p total)).calls = p.calls) := by
  have hq : SetTotalRows cvt p total =
      { page := 1, pageSize := p.defaultPageSize,
        totalPages := pagesOf cvt total p.defaultPageSize, totalRows := total,
        OnChange := p.OnChange,
        calls := if p.OnChange then p.calls ++ [(1, p.defaultPageSize)] else p.calls,
        defaultPageSize := p.defaultPageSize } := SetTotalRows_eq cvt p total
  have hT : IsInt (pagesOf cvt total p.defaultPageSize) := toInt_isInt cvt hcvt _
  generalize pagesOf cvt total p.defaultPageSize = T at hq hT
  have hit := iterate_handleNextClick k (SetTotalRows cvt p total)
    (by rw [hq]) (by rw [hq]; exact hT)
  rw [hq] at hit ⊢
  rw [hit]
  simp only []
  have hn : (max T 1 - 1).toNat = (T - 1).toNat := by
    rcases le_total T 1 with h | h
    · rw [max_eq_right h]
      omega
    · rw [max_eq_left h]
  have hsum : (1 : Int) + 1 = 2 := rfl
  refine ⟨?_, ?_, ?_, ?_⟩
  · rcases le_total T 1 with h | h
    · rw [max_eq_right h]
      have : (T - 1).toNat = 0 := by omega
      simp only [this, Nat.min_zero]
      omega
    · rw [max_eq_left h]
      omega
  · rw [hn, hsum]
  · intro hset
    rw [hn, hset]
    simp
    omega
  · intro hnil
    rw [hnil]
    simp

theorem next_clicks_after_SetTotalRows_witness :
    (∀ f, IsInt (cvtAmd64 f)) ∧
    (handleNextClick^[3]
        (SetTotalRows cvtAmd64
          { page := 7, pageSize := 5, totalPages := 0, totalRows := 0, OnChange := true,
            calls := [], defaultPageSize := 10 } 95)).page = 4 ∧
    (handleNextClick^[3]
        (SetTotalRows cvtAmd64
          { page := 7, pageSize := 5, totalPages := 0, totalRows := 0, OnChange := true,
            calls := [], defaultPageSize := 10 } 95)).calls =
      [(1, 10), (2, 10), (3, 10), (4, 10)] :=
  ⟨fun _ => (by decide : IsInt minInt),
    (next_clicks_after_SetTotalRows cvtAmd64 (fun _ => (by decide : IsInt minInt))
      { page := 7, pageSize := 5, totalPages := 0, totalRows := 0, OnChange := true,
        calls := [], defaultPageSize := 10 } 95 3).1,
    (next_clicks_after_SetTotalRows cvtAmd64 (fun _ => (by decide : IsInt minInt))
      { page := 7, pageSize := 5, totalPages := 0, totalRows := 0, OnChange := true,
        calls := [], defaultPageSize := 10 } 95 3).2.1⟩

end Pagination

end Widget
